import Mathlib

/-!
# PulseBridge core: shallow embedding and verification

This file embeds the deterministic core of the PulseBridge repository in Lean:

* `Cardiology` — the MeTTa-backed cardiology reasoning engine
  (`src/agent/metta/cardiology_knowledge.py`): symptom normalisation, fact
  tables, condition/urgency/recommendation lookup, risk amplification and
  `analyze_symptoms`.
* `Triage` — the multi-specialty router
  (`src/agent/metta/triage_knowledge.py`): keyword extraction, combination
  detection, per-specialty scoring, urgency and severity modifiers and
  `route_symptoms`.
* `Coordinator` — the session orchestration state machine
  (`src/agent/fetch_agents/coordinator_agent.py`): the session table and the
  message handlers that mutate it, plus the periodic stale-session sweep.

Numbers are modelled as exact rationals (the Python code computes with IEEE
doubles, but every constant in the fact tables is an exact multiple of 1/100
and every claim under study is an exact arithmetic identity on those values).
The hyperon library's `MeTTa.run` is modelled by its documented semantics:
for a program consisting of a single `!(match ...)` expression it returns a
one-element outer list `[inner]` where `inner` lists the results of the match
(empty when nothing matched).  Human-readable `reasoning` strings and log
output are presentation-only and are not modelled.
-/

namespace PulseBridge

/-! ## String helpers: Python `str.lower()` and the `in` substring test -/

/-- The character list of a string after Python's `str.lower()` (ASCII). -/
def lowerChars (s : String) : List Char := s.data.map Char.toLower

/-- `isPre needle hay`: `needle` is a prefix of `hay`. -/
def isPre : List Char → List Char → Bool
  | [], _ => true
  | _ :: _, [] => false
  | a :: as, b :: bs => a == b && isPre as bs

/-- `subIn needle hay`: `needle` occurs as a contiguous substring of `hay`. -/
def subIn (needle : List Char) : List Char → Bool
  | [] => needle.isEmpty
  | b :: bs => isPre needle (b :: bs) || subIn needle bs

/-- Python `w in s` where `s` is an already-lowercased haystack. -/
def strHas (hay : List Char) (w : String) : Bool := subIn w.data hay

/-- Python `any(word in s for word in ws)`. -/
def anyWord (hay : List Char) (ws : List String) : Bool := ws.any (strHas hay)

/-- Python `round(x, 2)`.  Python uses round-half-to-even; every value this
program rounds is an exact integer multiple of 1/100, where all rounding modes
agree (see `round2_cent`), so we use the mathematical nearest-integer round. -/
def round2 (q : ℚ) : ℚ := ((round (q * 100) : ℤ) : ℚ) / 100

/-- `q` is a non-negative integer number of hundredths.  All confidences,
urgencies and boosts produced by the engines satisfy this. -/
def Cent (q : ℚ) : Prop := ∃ k : ℕ, q = (k : ℚ) / 100

/-!
## Cardiology knowledge engine

Embeds `CardiologyKnowledge` from `src/agent/metta/cardiology_knowledge.py`.
The MeTTa space is an immutable fact table loaded in `_initialize_knowledge`;
each `metta.run` call is a pattern match against one predicate, modelled as a
filter/find over the corresponding list.
-/

namespace Cardiology

/-- `(symptom-indicates KEY CONDITION CONFIDENCE)` facts. -/
def symptomIndicatesFacts : List (String × String × ℚ) :=
  [("chest_pain_exertional", "angina", 0.70)]

/-- `(symptom-cluster KEY CONDITION CONFIDENCE)` facts, in load order. -/
def symptomClusterFacts : List (String × String × ℚ) :=
  [("chest_pain+radiating_pain+sweating", "myocardial_infarction", 0.85),
   ("palpitations+irregular_heartbeat", "arrhythmia", 0.75),
   ("shortness_of_breath+swelling+fatigue", "heart_failure", 0.70),
   ("chest_pain_sharp+positional", "pericarditis", 0.65),
   ("chest_pain+shortness_of_breath", "angina", 0.68),
   ("chest_pain_not_relieved", "myocardial_infarction", 0.80),
   ("chest_pain_sudden_tearing", "aortic_dissection", 0.90)]

/-- `(risk-amplifies FACTOR CONDITION BOOST)` facts. -/
def riskAmplifiesFacts : List (String × String × ℚ) :=
  [("hypertension", "cardiac", 0.15),
   ("diabetes", "cardiac", 0.15),
   ("age_over_60", "cardiac", 0.12),
   ("smoking", "myocardial_infarction", 0.10),
   ("high_cholesterol", "cardiac", 0.10),
   ("family_history_cardiac", "cardiac", 0.08)]

/-- `(urgency-level KEY SCORE)` facts. -/
def urgencyLevelFacts : List (String × ℚ) :=
  [("chest_pain+radiating_pain+sweating", 0.95),
   ("chest_pain_sudden_tearing", 0.98),
   ("chest_pain+shortness_of_breath", 0.85),
   ("palpitations+dizziness+syncope", 0.80),
   ("chest_pain_exertional", 0.60),
   ("palpitations", 0.40)]

/-- `(confidence-base ...)` and `(confidence-modifier ...)` facts.  They are
loaded into the space but no query in the file ever matches these predicates. -/
def confidenceModifierFacts : List (String × ℚ) :=
  [("single_symptom", 0.30), ("two_symptoms", 0.55), ("three_plus_symptoms", 0.70),
   ("classic_presentation", 0.15), ("atypical_presentation", -0.10)]

/-- `(recommendation CONDITION ACTION)` facts. -/
def recommendationFacts : List (String × String) :=
  [("myocardial_infarction", "Call 911 immediately"),
   ("myocardial_infarction", "EKG immediately"),
   ("myocardial_infarction", "Troponin test"),
   ("myocardial_infarction", "Aspirin if available"),
   ("angina", "Urgent cardiology consultation within 24-48 hours"),
   ("angina", "Stress test recommended"),
   ("angina", "EKG recommended"),
   ("angina", "Avoid strenuous activity until consultation"),
   ("arrhythmia", "24-hour Holter monitor"),
   ("arrhythmia", "Electrophysiology consultation"),
   ("arrhythmia", "Avoid stimulants (caffeine, nicotine)"),
   ("heart_failure", "Echocardiogram"),
   ("heart_failure", "BNP blood test"),
   ("heart_failure", "Heart failure specialist referral"),
   ("aortic_dissection", "Call 911 - DO NOT DRIVE"),
   ("aortic_dissection", "Emergency CT angiography")]

/-- `_normalize_symptoms`: maps free text to a knowledge-base symptom key.
Each Python `if`-block that can fall through is folded into the guard of the
corresponding branch of this `if`-chain, preserving first-match order. -/
def normalizeSymptoms (symptoms : String) : String :=
  let sl := lowerChars symptoms
  if anyWord sl ["sudden", "severe", "tearing", "ripping"] &&
     (strHas sl "chest" || strHas sl "pain") then
    "chest_pain_sudden_tearing"
  else if (strHas sl "chest" || strHas sl "pain") &&
          anyWord sl ["radiating", "arm", "jaw", "shoulder"] &&
          anyWord sl ["sweat", "sweating", "nausea"] then
    "chest_pain+radiating_pain+sweating"
  else if (strHas sl "chest" || strHas sl "pain") &&
          anyWord sl ["short", "breath", "breathing"] then
    "chest_pain+shortness_of_breath"
  else if anyWord sl ["exercise", "exertion", "activity", "walking"] &&
          (strHas sl "chest" || strHas sl "pain") then
    "chest_pain_exertional"
  else if anyWord sl ["palpitation", "racing", "irregular"] then
    (if anyWord sl ["dizz", "faint", "syncope"] then "palpitations+dizziness+syncope"
     else if anyWord sl ["irregular", "skip"] then "palpitations+irregular_heartbeat"
     else "palpitations")
  else if anyWord sl ["short", "breath"] && anyWord sl ["swell", "edema"] &&
          anyWord sl ["tired", "fatigue", "weak"] then
    "shortness_of_breath+swelling+fatigue"
  else if strHas sl "chest" || strHas sl "pain" then
    "chest_pain+shortness_of_breath"
  else
    "generic_cardiac_symptoms"

/-- The `($condition $confidence)` result atoms of the `symptom-cluster`
match in `_query_condition`. -/
def clusterMatches (symptomKey : String) : List (String × ℚ) :=
  (symptomClusterFacts.filter (fun f => f.1 == symptomKey)).map (fun f => f.2)

/-- The result atoms of the `symptom-indicates` match in `_query_condition`. -/
def indicatesMatches (symptomKey : String) : List (String × ℚ) :=
  (symptomIndicatesFacts.filter (fun f => f.1 == symptomKey)).map (fun f => f.2)

/-- The branch of `_query_condition` taken when a result list has at least two
entries: `condition = str(result[0])` renders the first `($cond $conf)`
expression atom as text, and the confidence falls back to `0.50` because the
second entry is an expression atom without a `get_object` attribute.  For the
loaded fact table no key occurs twice, so this branch is unreachable
(`queryCondition_confidence` holds in every branch regardless). -/
def twoResultBranch (m : List (String × ℚ)) : String × ℚ :=
  match m with
  | c :: _ => ("(" ++ c.1 ++ " " ++ toString c.2 ++ ")", 0.50)
  | [] => ("angina", 0.50)

/-- `_query_condition`: the guard `len(result) >= 2` tests the number of
matched atoms (hyperon returns the single bang expression's results as
`results[0]`), so with the loaded table — one fact per key — neither query
branch fires and the default `("angina", 0.50)` is always returned. -/
def queryCondition (symptomKey : String) : String × ℚ :=
  let m1 := clusterMatches symptomKey
  if 2 ≤ m1.length then twoResultBranch m1
  else
    let m2 := indicatesMatches symptomKey
    if 2 ≤ m2.length then twoResultBranch m2
    else ("angina", 0.50)

/-- Python `factor.lower().replace(' ', '_').replace('-', '_')`. -/
def normalizeRiskFactor (factor : String) : String :=
  ⟨factor.data.map (fun c =>
    let c' := c.toLower
    if c' == ' ' || c' == '-' then '_' else c')⟩

/-- The age-bucket factors appended to the risk-factor list:
`age_over_60` for age ≥ 60, else `age_over_40` for age ≥ 40 (Python also
requires the age to be truthy, which ℕ ages ≥ 40 always are). -/
def ageRiskFactors (patientAge : Option ℕ) : List String :=
  match patientAge with
  | none => []
  | some a => if 60 ≤ a then ["age_over_60"] else if 40 ≤ a then ["age_over_40"] else []

/-- The risk-factor list as the caller observes it after `analyze_symptoms`
returns: a non-empty list is passed by reference and mutated by the age-bucket
`append`; an empty (or missing) list is replaced by a fresh local list, so the
caller's list is untouched. -/
def callerRiskListAfter (riskFactors : List String) (patientAge : Option ℕ) : List String :=
  if riskFactors.isEmpty then riskFactors else riskFactors ++ ageRiskFactors patientAge

/-- First `(risk-amplifies FACTOR cardiac $boost)` match for a normalised factor. -/
def riskQueryCardiac (factorNorm : String) : Option ℚ :=
  (riskAmplifiesFacts.find? (fun f => f.1 == factorNorm && f.2.1 == "cardiac")).map
    (fun f => f.2.2)

/-- First `(risk-amplifies FACTOR CONDITION $boost)` match for a normalised
factor and a specific condition. -/
def riskQueryCondition (factorNorm condition : String) : Option ℚ :=
  (riskAmplifiesFacts.find? (fun f => f.1 == factorNorm && f.2.1 == condition)).map
    (fun f => f.2.2)

/-- One iteration of the factor loop in `_calculate_risk_amplification`:
a cardiac-generic match adds its boost and always appends the factor to
`identified_factors`; a condition-specific match adds its boost and appends
the factor only if not already identified. -/
def riskStep (condition : String) (acc : ℚ × List String) (factor : String) : ℚ × List String :=
  let fn := normalizeRiskFactor factor
  let acc1 :=
    match riskQueryCardiac fn with
    | some b => (acc.1 + b, acc.2 ++ [factor])
    | none => acc
  match riskQueryCondition fn condition with
  | some b => (acc1.1 + b, if acc1.2.contains factor then acc1.2 else acc1.2 ++ [factor])
  | none => acc1

/-- `_calculate_risk_amplification`: total boost and identified factors over
the given risk factors plus the appended age bucket. -/
def calculateRiskAmplification (condition : String) (riskFactors : List String)
    (patientAge : Option ℕ) : ℚ × List String :=
  (riskFactors ++ ageRiskFactors patientAge).foldl (riskStep condition) (0, [])

/-- `_query_urgency`: first `(urgency-level KEY $urgency)` match, default 0.70. -/
def queryUrgency (symptomKey : String) : ℚ :=
  match (urgencyLevelFacts.filter (fun f => f.1 == symptomKey)).map (fun f => f.2) with
  | u :: _ => u
  | [] => 0.70

/-- `_query_recommendations`: all `(recommendation CONDITION $action)` matches,
with a fixed default triad when none match. -/
def queryRecommendations (condition : String) : List String :=
  let recs := (recommendationFacts.filter (fun f => f.1 == condition)).map (fun f => f.2)
  if recs.isEmpty then
    ["Seek cardiology consultation",
     "Monitor symptoms closely",
     "Avoid strenuous activity until evaluated"]
  else recs

/-- Truthiness of the Python value `self.metta.run(q)` for a single-bang
program: hyperon returns one (possibly empty) result list per bang expression,
so the outer list is `[inner]`, which is non-empty — truthy — even when the
pattern matched nothing. -/
def runTruthy (inner : List α) : Bool := !(([inner] : List (List α)).isEmpty)

/-- `_count_matched_rules`: each `if self.metta.run(query)` check passes
unconditionally (see `runTruthy`), so the count is 3 plus one per identified
risk factor. -/
def countMatchedRules (symptomKey : String) (riskFactors : List String) : ℕ :=
  let c1 := if runTruthy (clusterMatches symptomKey) then 1 else 0
  let c2 := c1 + (if runTruthy (indicatesMatches symptomKey) then 1 else 0)
  let c3 := c2 + (if runTruthy
      ((urgencyLevelFacts.filter (fun f => f.1 == symptomKey)).map (fun f => f.2)) then 1 else 0)
  riskFactors.foldl (fun c factor =>
    let fn := normalizeRiskFactor factor
    c + (if runTruthy (riskAmplifiesFacts.filter (fun f => f.1 == fn)) then 1 else 0)) c3

/-- The dictionary returned by `analyze_symptoms`.  The `reasoning` entry is a
human-readable rendering of the other fields and is not modelled. -/
structure AnalysisResult where
  condition : String
  confidence : ℚ
  urgency : ℚ
  risk_factors_identified : List String
  matched_rules : ℕ
  recommendations : List String
  base_confidence : ℚ
  risk_amplification : ℚ
  deriving Repr

/-- `analyze_symptoms`: normalise, look up condition, amplify by risk factors,
cap the final confidence at 1.0, attach urgency, recommendations and the
fired-rule count. -/
def analyzeSymptoms (symptoms : String) (patientAge : Option ℕ)
    (riskFactors : List String) : AnalysisResult :=
  let symptomKey := normalizeSymptoms symptoms
  let cb := queryCondition symptomKey
  let rb := calculateRiskAmplification cb.1 riskFactors patientAge
  let finalConfidence := min 1 (cb.2 + rb.1)
  { condition := cb.1
    confidence := round2 finalConfidence
    urgency := round2 (queryUrgency symptomKey)
    risk_factors_identified := rb.2
    matched_rules := countMatchedRules symptomKey rb.2
    recommendations := queryRecommendations cb.1
    base_confidence := round2 cb.2
    risk_amplification := round2 rb.1 }

end Cardiology

/-!
## Triage routing engine

Embeds `TriageKnowledge` from `src/agent/metta/triage_knowledge.py`.
-/

namespace Triage

/-- `(cardiology-route KEYWORD WEIGHT)` facts. -/
def cardiologyRouteFacts : List (String × ℚ) :=
  [("chest_pain", 0.90), ("palpitations", 0.85), ("shortness_of_breath", 0.70),
   ("heart", 0.95), ("exertional", 0.88)]

/-- `(neurology-route KEYWORD WEIGHT)` facts. -/
def neurologyRouteFacts : List (String × ℚ) :=
  [("headache", 0.75), ("dizziness", 0.70), ("seizure", 0.95),
   ("numbness", 0.80), ("weakness", 0.75), ("vision_changes", 0.65)]

/-- `(dermatology-route KEYWORD WEIGHT)` facts. -/
def dermatologyRouteFacts : List (String × ℚ) :=
  [("rash", 0.90), ("skin_lesion", 0.92), ("itching", 0.75)]

/-- `(cardiology-combo KEY WEIGHT)` facts. -/
def cardiologyComboFacts : List (String × ℚ) :=
  [("chest_pain+exertional", 0.92), ("chest_pain+shortness_of_breath", 0.94),
   ("dizziness+palpitations", 0.85)]

/-- `(neurology-combo KEY WEIGHT)` facts. -/
def neurologyComboFacts : List (String × ℚ) :=
  [("headache+vision_changes", 0.88), ("numbness+weakness", 0.92)]

/-- `(dermatology-combo KEY WEIGHT)` facts. -/
def dermatologyComboFacts : List (String × ℚ) :=
  [("rash+itching", 0.93)]

/-- `(age-urgency-boost CATEGORY BOOST)` facts. -/
def ageUrgencyBoostFacts : List (String × ℚ) :=
  [("age_over_60", 0.10), ("age_over_70", 0.15), ("age_over_50", 0.05),
   ("pediatric", 0.08)]

/-- `(urgency-priority KEY SCORE)` facts. -/
def urgencyPriorityFacts : List (String × ℚ) :=
  [("chest_pain", 0.90), ("seizure", 0.98), ("numbness+weakness", 0.95),
   ("headache", 0.55), ("rash", 0.30)]

/-- `(severity-modifier KEY BOOST)` facts. -/
def severityModifierFacts : List (String × ℚ) :=
  [("sudden_onset", 0.15), ("severe_pain", 0.12), ("radiating_pain", 0.10)]

/-- First fact in a `(KEY, WEIGHT)` table whose key equals the query key
(`results[0][0]` of the corresponding MeTTa match). -/
def lookupWeight (facts : List (String × ℚ)) (key : String) : Option ℚ :=
  (facts.find? (fun f => f.1 == key)).map (fun f => f.2)

/-- The cardiac block of `_extract_symptom_keywords` (appends in check order). -/
def cardiacKeywordChecks (sl : List Char) : List String :=
  (if anyWord sl ["chest", "pain", "hurt", "pressure", "tight"] then ["chest_pain"] else [])
  ++ (if anyWord sl ["palpitation", "racing", "flutter", "irregular", "skip"]
      then ["palpitations"] else [])
  ++ (if anyWord sl ["breath", "breathing", "short", "dyspnea"]
      then ["shortness_of_breath"] else [])
  ++ (if anyWord sl ["heart", "cardiac"] then ["heart"] else [])
  ++ (if anyWord sl ["exercise", "exertion", "activity", "walking", "stairs", "exertional"]
      then ["exertional"] else [])

/-- The neurological block of `_extract_symptom_keywords`. -/
def neuroKeywordChecks (sl : List Char) : List String :=
  (if anyWord sl ["headache", "head", "migraine", "cephalalgia"] then ["headache"] else [])
  ++ (if anyWord sl ["dizzy", "dizziness", "vertigo", "spinning", "lightheaded"]
      then ["dizziness"] else [])
  ++ (if anyWord sl ["seizure", "convulsion", "fit", "epilep"] then ["seizure"] else [])
  ++ (if anyWord sl ["numb", "numbness", "tingling", "pins", "needles"]
      then ["numbness"] else [])
  ++ (if anyWord sl ["weak", "weakness", "paralysis", "cant move"] then ["weakness"] else [])
  ++ (if anyWord sl ["vision", "seeing", "sight", "blurry", "double"]
      then ["vision_changes"] else [])

/-- The dermatological block of `_extract_symptom_keywords`. -/
def dermaKeywordChecks (sl : List Char) : List String :=
  (if anyWord sl ["rash", "spots", "hives", "eruption"] then ["rash"] else [])
  ++ (if anyWord sl ["skin", "lesion", "mole", "growth", "bump"] then ["skin_lesion"] else [])
  ++ (if anyWord sl ["itch", "itching", "itchy", "scratch"] then ["itching"] else [])

/-- `_extract_symptom_keywords` before the empty-list fallback. -/
def extractSymptomKeywordsRaw (symptoms : String) : List String :=
  let sl := lowerChars symptoms
  cardiacKeywordChecks sl ++ neuroKeywordChecks sl ++ dermaKeywordChecks sl

/-- `_extract_symptom_keywords`: recognised keywords, or `["general"]` if none. -/
def extractSymptomKeywords (symptoms : String) : List String :=
  let ks := extractSymptomKeywordsRaw symptoms
  if ks.isEmpty then ["general"] else ks

/-- `_detect_symptom_combinations`: first matching combination, in source order. -/
def detectSymptomCombinations (keywords : List String) : Option String :=
  if keywords.contains "chest_pain" && keywords.contains "exertional" then
    some "chest_pain+exertional"
  else if keywords.contains "chest_pain" && keywords.contains "shortness_of_breath" then
    some "chest_pain+shortness_of_breath"
  else if keywords.contains "dizziness" && keywords.contains "palpitations" then
    some "dizziness+palpitations"
  else if keywords.contains "headache" && keywords.contains "vision_changes" then
    some "headache+vision_changes"
  else if keywords.contains "numbness" && keywords.contains "weakness" then
    some "numbness+weakness"
  else if keywords.contains "rash" && keywords.contains "itching" then
    some "rash+itching"
  else none

/-- Helper for the per-specialty query loops: a matched weight contributes one
`(specialty, confidence)` pair, a miss contributes nothing. -/
def specialtyMatch (specialty : String) (w : Option ℚ) : List (String × ℚ) :=
  match w with
  | some c => [(specialty, c)]
  | none => []

/-- `_query_specialty_for_keyword`: queries each specialty's route table in the
fixed order `["cardiology", "neurology", "dermatology"]` (loop unrolled). -/
def querySpecialtyForKeyword (keyword : String) : List (String × ℚ) :=
  specialtyMatch "cardiology" (lookupWeight cardiologyRouteFacts keyword)
  ++ specialtyMatch "neurology" (lookupWeight neurologyRouteFacts keyword)
  ++ specialtyMatch "dermatology" (lookupWeight dermatologyRouteFacts keyword)

/-- `_query_symptom_combo`: same loop over the combo tables. -/
def querySymptomCombo (comboKey : String) : List (String × ℚ) :=
  specialtyMatch "cardiology" (lookupWeight cardiologyComboFacts comboKey)
  ++ specialtyMatch "neurology" (lookupWeight neurologyComboFacts comboKey)
  ++ specialtyMatch "dermatology" (lookupWeight dermatologyComboFacts comboKey)

/-- The `specialty_scores` Python dict: an insertion-ordered association list
from specialty to its accumulated confidence list. -/
abbrev ScoreDict := List (String × List ℚ)

/-- `specialty_scores[specialty].append(confidence)`, creating the entry at the
end of the dict if absent (Python dicts preserve insertion order). -/
def addScore (d : ScoreDict) (specialty : String) (c : ℚ) : ScoreDict :=
  match d with
  | [] => [(specialty, [c])]
  | (k, vs) :: t =>
    if k == specialty then (k, vs ++ [c]) :: t else (k, vs) :: addScore t specialty c

/-- The loop state of `route_symptoms`: `specialty_scores`, `matched_keywords`
and `matched_rules`. -/
structure RouteAcc where
  scores : ScoreDict
  matchedKws : List String
  rules : ℕ

/-- The body of the `for keyword in symptom_keywords` loop. -/
def accumKeyword (acc : RouteAcc) (keyword : String) : RouteAcc :=
  (querySpecialtyForKeyword keyword).foldl
    (fun a m =>
      { scores := addScore a.scores m.1 m.2
        matchedKws := if a.matchedKws.contains keyword then a.matchedKws
                      else a.matchedKws ++ [keyword]
        rules := a.rules + 1 })
    acc

/-- The `if combo_key:` block accumulating combo matches. -/
def accumCombo (acc : RouteAcc) (comboKey : String) : RouteAcc :=
  (querySymptomCombo comboKey).foldl
    (fun a m => { a with scores := addScore a.scores m.1 m.2, rules := a.rules + 1 })
    acc

/-- Python `max(scores)` over a non-empty list (`scores` lists are only created
non-empty; the default is never used). -/
def maxListQ : List ℚ → ℚ
  | [] => 0
  | v :: vs => vs.foldl max v

/-- Python `max(final_scores, key=final_scores.get)` over the
insertion-ordered dict: the scan keeps the current entry unless a strictly
greater value appears, so the first entry attaining the maximum wins. -/
def pyMaxByVal (l : List (String × ℚ)) : Option (String × ℚ) :=
  match l with
  | [] => none
  | h :: t => some (t.foldl (fun acc x => if acc.2 < x.2 then x else acc) h)

/-- `_apply_age_modifiers`: age bucket and its urgency boost plus fired-rule
count (`specialty_scores` is passed in Python but unused). -/
def applyAgeModifiers (patientAge : ℕ) : ℚ × ℕ :=
  let ageCategory : Option String :=
    if 70 ≤ patientAge then some "age_over_70"
    else if 60 ≤ patientAge then some "age_over_60"
    else if 50 ≤ patientAge then some "age_over_50"
    else if patientAge < 18 then some "pediatric"
    else none
  match ageCategory with
  | some cat =>
    match lookupWeight ageUrgencyBoostFacts cat with
    | some b => (b, 1)
    | none => (0, 0)
  | none => (0, 0)

/-- `_query_urgency`: running max over 0.50, first the combo key, then each
extracted keyword. -/
def queryUrgencyTriage (keywords : List String) (comboKey : Option String) : ℚ :=
  let m0 : ℚ := 0.50
  let m1 :=
    match comboKey with
    | some ck =>
      match lookupWeight urgencyPriorityFacts ck with
      | some u => max m0 u
      | none => m0
    | none => m0
  keywords.foldl
    (fun m kw =>
      match lookupWeight urgencyPriorityFacts kw with
      | some u => max m u
      | none => m)
    m1

/-- The trigger-word table of `_detect_severity_modifiers`. -/
def severityModifierTriggers : List (String × List String) :=
  [("sudden_onset", ["sudden", "suddenly", "acute", "came on"]),
   ("severe_pain", ["severe", "terrible", "worst", "unbearable", "excruciating"]),
   ("radiating_pain", ["radiating", "spreading", "shoots", "travels"])]

/-- `_detect_severity_modifiers`: sums the boost of each modifier whose trigger
words occur in the lowercased text. -/
def detectSeverityModifiers (symptoms : String) : ℚ :=
  let sl := lowerChars symptoms
  severityModifierTriggers.foldl
    (fun b m =>
      if anyWord sl m.2 then
        match lookupWeight severityModifierFacts m.1 with
        | some v => b + v
        | none => b
      else b)
    0

/-- Stable descending insertion used to model Python's
`sorted(items, key=lambda x: x[1], reverse=True)` (equal values keep their
original relative order). -/
def insertDescByVal (x : String × ℚ) : List (String × ℚ) → List (String × ℚ)
  | [] => [x]
  | h :: t => if x.2 ≤ h.2 then h :: insertDescByVal x t else x :: h :: t

/-- Stable sort of the score list by value, descending. -/
def sortDescByVal (l : List (String × ℚ)) : List (String × ℚ) :=
  l.foldl (fun acc x => insertDescByVal x acc) []

/-- Age truthiness of `if patient_age:`: `None` and `0` are falsy. -/
def ageTruthy : Option ℕ → Bool
  | none => false
  | some a => a != 0

/-- The dictionary returned by `route_symptoms`.  The `reasoning` entry is a
human-readable rendering of the other fields and is not modelled. -/
structure RoutingResult where
  recommended_specialty : String
  confidence : ℚ
  urgency : ℚ
  matched_keywords : List String
  matched_rules : ℕ
  all_specialty_scores : List (String × ℚ)
  secondary_specialty : Option String
  deriving Repr

/-- The accumulator state after both scoring loops of `route_symptoms`
(individual keywords, then the detected combination). -/
def scoresAcc (symptoms : String) : RouteAcc :=
  let symptomKeywords := extractSymptomKeywords symptoms
  let acc1 := symptomKeywords.foldl accumKeyword ⟨[], [], 0⟩
  match detectSymptomCombinations symptomKeywords with
  | some ck => accumCombo acc1 ck
  | none => acc1

/-- `final_scores`: per-specialty best confidence, in dict insertion order. -/
def finalScoresOf (symptoms : String) : List (String × ℚ) :=
  (scoresAcc symptoms).scores.map (fun p => (p.1, maxListQ p.2))

/-- The keys of a score dict, in insertion order. -/
def keysOf (d : ScoreDict) : List String := d.map Prod.fst

/-- Position of a specialty in the fixed iteration order
`["cardiology", "neurology", "dermatology"]`. -/
def prio (specialty : String) : ℕ :=
  if specialty == "cardiology" then 0
  else if specialty == "neurology" then 1
  else if specialty == "dermatology" then 2
  else 3

/-- Lookup of a specialty's confidence list in the score dict. -/
def scoresGet (d : ScoreDict) (specialty : String) : Option (List ℚ) :=
  (d.find? (fun p => p.1 == specialty)).map (fun p => p.2)

/-- Confidence `c` has been recorded for `specialty` in the score dict. -/
def valIn (specialty : String) (c : ℚ) (d : ScoreDict) : Prop :=
  ∃ vs, scoresGet d specialty = some vs ∧ c ∈ vs

/-- The urgency pipeline of `route_symptoms`: base urgency from the matched
keywords and combo, plus the age modifier (only when the age is truthy), plus
the severity modifiers, each capped at 1.0. -/
def routeUrgency (symptoms : String) (patientAge : Option ℕ) : ℚ :=
  let symptomKeywords := extractSymptomKeywords symptoms
  let urgency0 := queryUrgencyTriage symptomKeywords (detectSymptomCombinations symptomKeywords)
  let ageApplied :=
    if ageTruthy patientAge then applyAgeModifiers (patientAge.getD 0) else (0, 0)
  let urgency1 :=
    if ageTruthy patientAge then min 1 (urgency0 + ageApplied.1) else urgency0
  min 1 (urgency1 + detectSeverityModifiers symptoms)

/-- `route_symptoms`: extract keywords, accumulate per-specialty confidences,
pick the max-scoring specialty (first wins on ties, `cardiology`/0.50 when no
specialty scored), then urgency with age and severity modifiers, and the
secondary specialty when the runner-up scores at least 0.60. -/
def routeSymptoms (symptoms : String) (patientAge : Option ℕ) : RoutingResult :=
  let symptomKeywords := extractSymptomKeywords symptoms
  let acc2 := scoresAcc symptoms
  let finalScores := finalScoresOf symptoms
  let best :=
    match pyMaxByVal finalScores with
    | some p => p
    | none => ("cardiology", 0.50)
  let ageApplied :=
    if ageTruthy patientAge then applyAgeModifiers (patientAge.getD 0) else (0, 0)
  let urgency2 := routeUrgency symptoms patientAge
  let secondary :=
    if 1 < finalScores.length then
      match sortDescByVal finalScores with
      | _ :: snd :: _ => if 0.60 ≤ snd.2 then some snd.1 else none
      | _ => none
    else none
  { recommended_specialty := best.1
    confidence := round2 best.2
    urgency := round2 urgency2
    matched_keywords := if acc2.matchedKws.isEmpty then symptomKeywords else acc2.matchedKws
    matched_rules := acc2.rules + ageApplied.2
    all_specialty_scores := finalScores
    secondary_specialty := secondary }

end Triage

/-!
## Session coordinator

Embeds the session state machine of
`src/agent/fetch_agents/coordinator_agent.py`: the `active_sessions` dict, the
message handlers that mutate it, and the periodic stale-session sweep.  Each
handler is a function from the session table and the inbound message to the new
table plus the list of outbound sends (`ctx.send` calls, in order).  Wall-clock
time is passed in as `now` (seconds).  Log output is not modelled.  The inbound
bridge and web-query handlers create sessions exactly like
`handle_chat_message` but with the `bridge_mode` / `rest_mode` flag set; the
theorems quantify over arbitrary tables, which covers sessions of every mode.
`webQueryResolve` models the exit of `handle_web_query`'s bounded poll loop:
the pickup branch (response ready) and the 60-second timeout branch.
-/

namespace Coordinator

/-- The agent-address environment configuration (empty string = unset). -/
structure Config where
  triageAddr : String
  cardiologyAddr : String
  neurologyAddr : String
  dermatologyAddr : String
  deriving Repr, DecidableEq

/-- The triage result stored in `active_sessions[sid]["triage_response"]`. -/
structure TriageStored where
  specialty : String
  confidence : ℚ
  urgency : String
  reasoning : String
  matched_rules : ℕ
  deriving Repr

/-- The specialist result stored in
`active_sessions[sid]["specialist_response"]`. -/
structure SpecialistStored where
  specialty : String
  diagnosis : String
  condition : String
  confidence : ℚ
  risk_level : String
  recommendations : List String
  metta_rules : ℕ
  asi_one_enhanced : Bool
  deriving Repr

/-- One entry of the `active_sessions` dict.  `final_response` stores the
response text kept for the REST poller (the Python stores a full ChatResponse
object; only its text is consumed). -/
structure SessionData where
  user : String
  symptoms : String
  timestamp : ℕ
  triage_response : Option TriageStored
  specialist_response : Option SpecialistStored
  bridge_mode : Bool := false
  rest_mode : Bool := false
  response_ready : Bool := false
  final_response : Option String := none
  deriving Repr

/-- Inbound `ChatMessage`. -/
structure ChatMessageData where
  message : String
  session_id : String
  deriving Repr, DecidableEq

/-- Outbound `ChatResponse`.  The `metadata` dict is presentational and not
modelled. -/
structure ChatResponseData where
  response : String
  session_id : String
  deriving Repr, DecidableEq

/-- Outbound `SymptomRoutingRequest` (the coordinator always sends
`patient_age=None`, `patient_gender=None`, `medical_history=[]`). -/
structure SymptomRoutingRequestData where
  symptoms : String
  session_id : String
  deriving Repr, DecidableEq

/-- Inbound `SpecialtyRecommendation` from the triage agent. -/
structure SpecialtyRecommendationMsg where
  recommended_specialty : String
  confidence : ℚ
  urgency_level : String
  reasoning : String
  matched_rules : ℕ
  matched_keywords : List String
  session_id : String
  deriving Repr

/-- Outbound `SpecialistAnalysisRequest` (age/gender/history fixed as above). -/
structure SpecialistAnalysisRequestData where
  symptoms : String
  session_id : String
  deriving Repr, DecidableEq

/-- Inbound `SpecialistAnalysisResponse` from a specialist agent. -/
structure SpecialistAnalysisResponseMsg where
  specialty : String
  diagnosis : String
  condition : String
  confidence : ℚ
  urgency_score : ℚ
  risk_level : String
  recommendations : List String
  metta_rules_matched : ℕ
  risk_factors_identified : List String
  asi_one_enhanced : Bool
  reasoning_summary : String
  session_id : String
  deriving Repr

/-- A doctor record from the blockchain directory (external collaborator). -/
structure Doctor where
  name : String
  specialization : String
  email : Option String
  deriving Repr, DecidableEq

/-- An outbound `ctx.send`. -/
inductive Action where
  | sendChat (target : String) (resp : ChatResponseData)
  | sendRouting (target : String) (req : SymptomRoutingRequestData)
  | sendSpecialist (target : String) (req : SpecialistAnalysisRequestData)
  | sendBridgeText (target : String) (text : String)
  | sendWebResponse (target : String) (response : String) (success : Bool)
  deriving Repr, DecidableEq

/-- The `active_sessions` dict, keyed by session id. -/
abbrev SessionTable := List (String × SessionData)

/-- `active_sessions.get(sid)` / `sid in active_sessions`. -/
def tableGet (t : SessionTable) (sid : String) : Option SessionData :=
  (t.find? (fun p => p.1 == sid)).map (fun p => p.2)

/-- `active_sessions[sid] = sess` (replace, or append preserving dict order). -/
def tableSet (t : SessionTable) (sid : String) (sess : SessionData) : SessionTable :=
  match t with
  | [] => [(sid, sess)]
  | (k, v) :: rest =>
    if k == sid then (sid, sess) :: rest else (k, v) :: tableSet rest sid sess

/-- `del active_sessions[sid]`. -/
def tableDel (t : SessionTable) (sid : String) : SessionTable :=
  t.filter (fun p => !(p.1 == sid))

/-- `_is_greeting`: any greeting word occurs as a substring. -/
def isGreeting (message : String) : Bool :=
  ["hi", "hello", "hey", "help", "start", "greetings"].any (strHas (lowerChars message))

/-- `_get_welcome_message` (abbreviated to its first line; the full Markdown
body is presentation-only). -/
def welcomeMessageText : String :=
  "Welcome to PulseBridge - AI-Powered Healthcare Consultation"

/-- The acknowledgment text sent before consulting the triage agent. -/
def processingText : String :=
  "Analyzing your symptoms... Please wait while I consult our medical AI specialists."

/-- `_send_error_response`'s message text. -/
def errorResponseText (error : String) : String :=
  "I apologize, but I encountered an error: " ++ error
    ++ "\n\nPlease try again or seek immediate medical attention if urgent."

/-- The timeout text of `handle_web_query`. -/
def webTimeoutText : String :=
  "Sorry, the analysis is taking longer than expected. Please try again in a moment."

/-- `_get_specialist_address`: the specialty→address map with default `""`. -/
def getSpecialistAddress (cfg : Config) (specialty : String) : String :=
  let s : String := ⟨lowerChars specialty⟩
  if s == "cardiology" then cfg.cardiologyAddr
  else if s == "neurology" then cfg.neurologyAddr
  else if s == "dermatology" then cfg.dermatologyAddr
  else ""

/-- `_format_complete_response`.  The Python renders a Markdown consultation
report (diagnosis, specialty, confidence percentage, urgency emoji, up to three
recommendations, up to three doctors, rule counts).  Exact prose and numeric
formatting are presentation-only; the model keeps the structural content. -/
def formatCompleteResponse (triage : TriageStored) (specialist : SpecialistStored)
    (doctors : List Doctor) : String :=
  "PulseBridge AI Medical Consultation\n"
    ++ specialist.diagnosis ++ "\n"
    ++ specialist.specialty ++ "\n"
    ++ specialist.risk_level ++ "\n"
    ++ String.intercalate "\n" (specialist.recommendations.take 3) ++ "\n"
    ++ String.intercalate "\n"
        ((doctors.take 3).map (fun d => d.name ++ " - " ++ d.specialization)) ++ "\n"
    ++ triage.reasoning

/-- `handle_chat_message`: greeting short-circuit, session creation, then
either the missing-triage-configuration error or the acknowledgment plus the
routing request. -/
def handleChatMessage (cfg : Config) (now : ℕ) (t : SessionTable) (sender : String)
    (msg : ChatMessageData) : SessionTable × List Action :=
  if isGreeting msg.message then
    (t, [.sendChat sender ⟨welcomeMessageText, msg.session_id⟩])
  else
    let sess : SessionData :=
      { user := sender, symptoms := msg.message, timestamp := now,
        triage_response := none, specialist_response := none }
    let t' := tableSet t msg.session_id sess
    if cfg.triageAddr == "" then
      (t', [.sendChat sender ⟨errorResponseText "Triage agent not configured", msg.session_id⟩])
    else
      (t', [.sendChat sender ⟨processingText, msg.session_id⟩,
            .sendRouting cfg.triageAddr ⟨msg.message, msg.session_id⟩])

/-- `handle_triage_response`: unknown sessions are dropped; otherwise the
triage result is stored and either the specialist request is sent, or — when
the specialty has no configured address — an error response is sent to the
user (the session entry is not deleted). -/
def handleTriageResponse (cfg : Config) (t : SessionTable)
    (msg : SpecialtyRecommendationMsg) : SessionTable × List Action :=
  match tableGet t msg.session_id with
  | none => (t, [])
  | some sess =>
    let tr : TriageStored :=
      ⟨msg.recommended_specialty, msg.confidence, msg.urgency_level,
       msg.reasoning, msg.matched_rules⟩
    let sess' := { sess with triage_response := some tr }
    let t' := tableSet t msg.session_id sess'
    let specialistAddress := getSpecialistAddress cfg msg.recommended_specialty
    if specialistAddress == "" then
      (t', [.sendChat sess.user
        ⟨errorResponseText (msg.recommended_specialty ++ " agent not available"),
         msg.session_id⟩])
    else
      (t', [.sendSpecialist specialistAddress ⟨sess.symptoms, msg.session_id⟩])

/-- `handle_specialist_response`: store the result, format the final response
(the doctor list comes from the external directory and is passed in), then
dispatch by mode — bridge: send and delete; REST: mark ready and keep;
message: send and delete.  When no triage result was stored, the Python
subscripts `None` and raises an unhandled `TypeError`: nothing is sent and the
session (with the specialist result already stored) stays in the table. -/
def handleSpecialistResponse (t : SessionTable) (msg : SpecialistAnalysisResponseMsg)
    (doctors : List Doctor) : SessionTable × List Action :=
  match tableGet t msg.session_id with
  | none => (t, [])
  | some sess =>
    let spec : SpecialistStored :=
      ⟨msg.specialty, msg.diagnosis, msg.condition, msg.confidence, msg.risk_level,
       msg.recommendations, msg.metta_rules_matched, msg.asi_one_enhanced⟩
    let sess' := { sess with specialist_response := some spec }
    let t' := tableSet t msg.session_id sess'
    match sess.triage_response with
    | none => (t', [])
    | some tr =>
      let formatted := formatCompleteResponse tr spec doctors
      if sess'.bridge_mode then
        (tableDel t' msg.session_id, [.sendBridgeText sess.user formatted])
      else if sess'.rest_mode then
        (tableSet t' msg.session_id
          { sess' with final_response := some formatted, response_ready := true }, [])
      else
        (tableDel t' msg.session_id, [.sendChat sess.user ⟨formatted, msg.session_id⟩])

/-- The exit of `handle_web_query`'s bounded poll (60s at 0.5s steps): on
pickup the final response is sent and the session deleted; on timeout the
session is deleted when still present and the timeout message is sent. -/
def webQueryResolve (t : SessionTable) (sid sender : String) : SessionTable × List Action :=
  match tableGet t sid with
  | some sess =>
    if sess.response_ready then
      (tableDel t sid, [.sendWebResponse sender (sess.final_response.getD "") true])
    else
      (tableDel t sid, [.sendWebResponse sender webTimeoutText false])
  | none => (t, [.sendWebResponse sender webTimeoutText false])

/-- The 5-minute session TTL of `cleanup_stale_sessions`. -/
def sessionTimeoutSeconds : ℕ := 300

/-- The sweep period of the `@agent.on_interval` decorator (2 minutes). -/
def cleanupIntervalSeconds : ℕ := 120

/-- `cleanup_stale_sessions`: drop every session strictly older than the TTL
(timestamps are creation times, never in the future). -/
def cleanupStaleSessions (now : ℕ) (t : SessionTable) : SessionTable :=
  t.filter (fun p => !(sessionTimeoutSeconds < now - p.2.timestamp))

end Coordinator


/-!
## Theorems

Helper lemmas first, then one theorem per claim (with witnesses for theorems
that carry hypotheses, and counterexamples for corrected claims).
-/

theorem Cent.add {a b : ℚ} (ha : Cent a) (hb : Cent b) : Cent (a + b) := by
  obtain ⟨j, rfl⟩ := ha
  obtain ⟨k, rfl⟩ := hb
  exact ⟨j + k, by push_cast; ring⟩

theorem Cent.nonneg {a : ℚ} (ha : Cent a) : 0 ≤ a := by
  obtain ⟨j, rfl⟩ := ha
  positivity

theorem Cent.min_one {a : ℚ} (ha : Cent a) : Cent (min 1 a) := by
  rcases le_total 1 a with h | h
  · rw [min_eq_left h]; exact ⟨100, by norm_num⟩
  · rw [min_eq_right h]; exact ha

theorem round2_cent {q : ℚ} (h : Cent q) : round2 q = q := by
  obtain ⟨k, rfl⟩ := h
  have h100 : ((k : ℚ) / 100) * 100 = (k : ℚ) := by
    field_simp
  rw [round2, h100, round_natCast, Int.cast_natCast]

namespace Cardiology

theorem twoResultBranch_confidence (m : List (String × ℚ)) :
    (twoResultBranch m).2 = 0.50 := by
  cases m <;> rfl

theorem queryCondition_confidence (k : String) : (queryCondition k).2 = 0.50 := by
  unfold queryCondition
  dsimp only
  split
  · exact twoResultBranch_confidence _
  · split
    · exact twoResultBranch_confidence _
    · rfl

theorem mem_riskAmplifiesFacts_boost {f : String × String × ℚ}
    (hf : f ∈ riskAmplifiesFacts) : 0 ≤ f.2.2 ∧ Cent f.2.2 := by
  fin_cases hf
  · exact ⟨by norm_num, 15, by norm_num⟩
  · exact ⟨by norm_num, 15, by norm_num⟩
  · exact ⟨by norm_num, 12, by norm_num⟩
  · exact ⟨by norm_num, 10, by norm_num⟩
  · exact ⟨by norm_num, 10, by norm_num⟩
  · exact ⟨by norm_num, 8, by norm_num⟩

theorem riskQueryCardiac_spec {fn : String} {b : ℚ}
    (h : riskQueryCardiac fn = some b) : 0 ≤ b ∧ Cent b := by
  unfold riskQueryCardiac at h
  rw [Option.map_eq_some'] at h
  obtain ⟨f, hfind, rfl⟩ := h
  exact mem_riskAmplifiesFacts_boost (List.mem_of_find?_eq_some hfind)

theorem riskQueryCondition_spec {fn c : String} {b : ℚ}
    (h : riskQueryCondition fn c = some b) : 0 ≤ b ∧ Cent b := by
  unfold riskQueryCondition at h
  rw [Option.map_eq_some'] at h
  obtain ⟨f, hfind, rfl⟩ := h
  exact mem_riskAmplifiesFacts_boost (List.mem_of_find?_eq_some hfind)

theorem riskStep_spec (c : String) (acc : ℚ × List String) (factor : String)
    (h : 0 ≤ acc.1 ∧ Cent acc.1) :
    0 ≤ (riskStep c acc factor).1 ∧ Cent (riskStep c acc factor).1 := by
  unfold riskStep
  cases h1 : riskQueryCardiac (normalizeRiskFactor factor) with
  | none =>
    cases h2 : riskQueryCondition (normalizeRiskFactor factor) c with
    | none => simp only [h1, h2]; exact h
    | some b =>
      obtain ⟨hb0, hbc⟩ := riskQueryCondition_spec h2
      simp only [h1, h2]
      exact ⟨by linarith [h.1], h.2.add hbc⟩
  | some b =>
    obtain ⟨hb0, hbc⟩ := riskQueryCardiac_spec h1
    cases h2 : riskQueryCondition (normalizeRiskFactor factor) c with
    | none =>
      simp only [h1, h2]
      exact ⟨by linarith [h.1], h.2.add hbc⟩
    | some b' =>
      obtain ⟨hb0', hbc'⟩ := riskQueryCondition_spec h2
      simp only [h1, h2]
      exact ⟨by linarith [h.1], (h.2.add hbc).add hbc'⟩

theorem riskFold_spec (c : String) (l : List String) (acc : ℚ × List String)
    (h : 0 ≤ acc.1 ∧ Cent acc.1) :
    0 ≤ (l.foldl (riskStep c) acc).1 ∧ Cent (l.foldl (riskStep c) acc).1 := by
  induction l generalizing acc with
  | nil => simpa using h
  | cons f t ih => exact ih _ (riskStep_spec c acc f h)

theorem riskAmplification_spec (c : String) (rf : List String) (a : Option ℕ) :
    0 ≤ (calculateRiskAmplification c rf a).1 ∧ Cent (calculateRiskAmplification c rf a).1 :=
  riskFold_spec c _ _ ⟨le_refl 0, 0, by norm_num⟩

end Cardiology
end PulseBridge
namespace PulseBridge
namespace Cardiology

theorem foldl_count_aux (l : List String) (n : ℕ) :
    l.foldl (fun c (_ : String) => c + 1) n = n + l.length := by
  induction l generalizing n with
  | nil => simp
  | cons f t ih => simp only [List.foldl_cons, ih, List.length_cons]; omega

theorem countMatchedRules_eq (k : String) (rf : List String) :
    countMatchedRules k rf = 3 + rf.length := by
  unfold countMatchedRules runTruthy
  simp only [List.isEmpty_cons, Bool.not_false, if_true]
  rw [foldl_count_aux]

/-- Claim C1: for every symptoms string, optional age and risk-factor list,
the analysis result satisfies
`finalConfidence = min(1.0, baseConfidence + Σ matched risk-factor boosts)`
(the returned `risk_amplification` is that sum by construction), and hence
`finalConfidence ≥ baseConfidence`, the boosts being non-negative. -/
theorem analyze_c1 (s : String) (a : Option ℕ) (rf : List String) :
    (analyzeSymptoms s a rf).confidence
      = min 1 ((analyzeSymptoms s a rf).base_confidence
          + (analyzeSymptoms s a rf).risk_amplification)
    ∧ (analyzeSymptoms s a rf).base_confidence ≤ (analyzeSymptoms s a rf).confidence := by
  obtain ⟨hb0, hbc⟩ := riskAmplification_spec (queryCondition (normalizeSymptoms s)).1 rf a
  have hbase : (queryCondition (normalizeSymptoms s)).2 = 0.50 := queryCondition_confidence _
  have hconf : (analyzeSymptoms s a rf).confidence
      = round2 (min 1 ((queryCondition (normalizeSymptoms s)).2
          + (calculateRiskAmplification (queryCondition (normalizeSymptoms s)).1 rf a).1)) := rfl
  have hbasef : (analyzeSymptoms s a rf).base_confidence
      = round2 (queryCondition (normalizeSymptoms s)).2 := rfl
  have hrisk : (analyzeSymptoms s a rf).risk_amplification
      = round2 (calculateRiskAmplification (queryCondition (normalizeSymptoms s)).1 rf a).1 := rfl
  have hc50 : Cent (0.50 : ℚ) := ⟨50, by norm_num⟩
  have hsum : Cent ((0.50 : ℚ)
      + (calculateRiskAmplification (queryCondition (normalizeSymptoms s)).1 rf a).1) :=
    hc50.add hbc
  rw [hconf, hbasef, hrisk, hbase]
  rw [round2_cent hsum.min_one, round2_cent hc50, round2_cent hbc]
  exact ⟨rfl, le_min (by norm_num) (by linarith)⟩

/-- Claim C5: for every input to the cardiology analysis, the `matched_rules`
count in the returned result is at least 1.  (In fact it is always
`3 + number of identified risk factors`: each `if self.metta.run(query)` check
in `_count_matched_rules` tests a list that is never empty.) -/
theorem analyze_c5 (s : String) (a : Option ℕ) (rf : List String) :
    1 ≤ (analyzeSymptoms s a rf).matched_rules := by
  have h : (analyzeSymptoms s a rf).matched_rules
      = countMatchedRules (normalizeSymptoms s)
          (calculateRiskAmplification (queryCondition (normalizeSymptoms s)).1 rf a).2 := rfl
  rw [h, countMatchedRules_eq]
  omega

/-- Claim C2, counterexample: on the input
`"severe chest pain when I exercise and shortness of breath"` the normalizer
does **not** produce `chest_pain+shortness_of_breath` (the severity branch
matches the word `severe` first), the base confidence is not 0.68 and the
urgency is not 0.85 — refuting the claim as stated. -/
theorem analyze_c2_cx :
    normalizeSymptoms "severe chest pain when I exercise and shortness of breath"
      ≠ "chest_pain+shortness_of_breath"
    ∧ (analyzeSymptoms "severe chest pain when I exercise and shortness of breath" none
        []).base_confidence ≠ 0.68
    ∧ (analyzeSymptoms "severe chest pain when I exercise and shortness of breath" none
        []).urgency ≠ 0.85 := by
  refine ⟨by decide, ?_, ?_⟩
  · have h : (analyzeSymptoms "severe chest pain when I exercise and shortness of breath" none
        []).base_confidence = round2 0.50 := rfl
    rw [h, round2_cent ⟨50, by norm_num⟩]
    norm_num
  · have h : (analyzeSymptoms "severe chest pain when I exercise and shortness of breath" none
        []).urgency = round2 0.98 := rfl
    rw [h, round2_cent ⟨98, by norm_num⟩]
    norm_num

/-- Claim C2, amended: for that input the normalizer produces the key
`chest_pain_sudden_tearing`; the condition lookup returns the default
`("angina", 0.50)` (its guard demands at least two matched facts for one key,
which the loaded table never yields), and the urgency lookup gives 0.98. -/
theorem analyze_c2_amended :
    normalizeSymptoms "severe chest pain when I exercise and shortness of breath"
      = "chest_pain_sudden_tearing"
    ∧ queryCondition "chest_pain_sudden_tearing" = ("angina", 0.50)
    ∧ queryUrgency "chest_pain_sudden_tearing" = 0.98 :=
  ⟨by decide, rfl, rfl⟩

/-- Claim C6 (code bug): `analyze_symptoms` appends the age bucket to the
caller's risk-factor list, so calling it twice with the same (non-empty) list
object yields different results: with `["hypertension"]` and age 60 the first
call leaves the caller's list as `["hypertension", "age_over_60"]` and returns
confidence 0.77 with 5 matched rules; the second call then returns confidence
0.89 with 6 matched rules and a duplicated `age_over_60` — the two results
differ, contradicting the claimed idempotence. -/
theorem analyze_c6_bug :
    callerRiskListAfter ["hypertension"] (some 60) = ["hypertension", "age_over_60"]
    ∧ (analyzeSymptoms "chest pain" (some 60) ["hypertension"]).matched_rules = 5
    ∧ (analyzeSymptoms "chest pain" (some 60)
        (callerRiskListAfter ["hypertension"] (some 60))).matched_rules = 6
    ∧ (analyzeSymptoms "chest pain" (some 60)
        (callerRiskListAfter ["hypertension"] (some 60))).risk_factors_identified
        = ["hypertension", "age_over_60", "age_over_60"]
    ∧ (analyzeSymptoms "chest pain" (some 60) ["hypertension"]).confidence = 0.77
    ∧ (analyzeSymptoms "chest pain" (some 60)
        (callerRiskListAfter ["hypertension"] (some 60))).confidence = 0.89
    ∧ analyzeSymptoms "chest pain" (some 60) (callerRiskListAfter ["hypertension"] (some 60))
        ≠ analyzeSymptoms "chest pain" (some 60) ["hypertension"] := by
  refine ⟨by decide, by decide, by decide, by decide, ?_, ?_, fun hcontra => ?_⟩
  · have h : (analyzeSymptoms "chest pain" (some 60) ["hypertension"]).confidence
        = round2 (min 1 (0.50 + (0 + 0.15 + 0.12))) := rfl
    rw [h, show ((0.50 : ℚ) + (0 + 0.15 + 0.12)) = 0.77 by norm_num,
      min_eq_right (by norm_num : (0.77 : ℚ) ≤ 1), round2_cent ⟨77, by norm_num⟩]
  · have h : (analyzeSymptoms "chest pain" (some 60)
        (callerRiskListAfter ["hypertension"] (some 60))).confidence
        = round2 (min 1 (0.50 + (0 + 0.15 + 0.12 + 0.12))) := rfl
    rw [h, show ((0.50 : ℚ) + (0 + 0.15 + 0.12 + 0.12)) = 0.89 by norm_num,
      min_eq_right (by norm_num : (0.89 : ℚ) ≤ 1), round2_cent ⟨89, by norm_num⟩]
  · exact absurd (congrArg AnalysisResult.matched_rules hcontra) (by decide)

end Cardiology

namespace Triage

theorem addScore_keys (d : ScoreDict) (sp : String) (c : ℚ) :
    keysOf (addScore d sp c) = if sp ∈ keysOf d then keysOf d else keysOf d ++ [sp] := by
  induction d with
  | nil => simp [addScore, keysOf]
  | cons h t ih =>
    obtain ⟨k, vs⟩ := h
    by_cases hk : k = sp
    · subst hk
      simp [addScore, keysOf]
    · have hbeq : (k == sp) = false := beq_eq_false_iff_ne.mpr hk
      simp only [addScore, hbeq, Bool.false_eq_true, if_false, keysOf, List.map_cons]
      rw [show keysOf (addScore t sp c) = List.map Prod.fst (addScore t sp c) from rfl] at ih
      by_cases hmem : sp ∈ keysOf t
      · have : sp ∈ k :: keysOf t := List.mem_cons_of_mem _ hmem
        rw [if_pos hmem] at ih
        simp only [keysOf] at ih ⊢
        rw [ih, if_pos (show sp ∈ k :: List.map Prod.fst t from this)]
      · have : ¬ sp ∈ (k :: keysOf t) := by
          intro hc
          rcases List.mem_cons.mp hc with h1 | h1
          · exact hk h1.symm
          · exact hmem h1
        rw [if_neg hmem] at ih
        simp only [keysOf] at ih ⊢
        rw [ih, if_neg (show ¬ sp ∈ k :: List.map Prod.fst t from this)]
        simp

theorem addScore_get_same (d : ScoreDict) (sp : String) (c : ℚ) :
    scoresGet (addScore d sp c) sp = some (((scoresGet d sp).getD []) ++ [c]) := by
  induction d with
  | nil => simp [addScore, scoresGet]
  | cons h t ih =>
    obtain ⟨k, vs⟩ := h
    by_cases hk : k = sp
    · subst hk
      simp [addScore, scoresGet]
    · have hbeq : (k == sp) = false := beq_eq_false_iff_ne.mpr hk
      simp only [addScore, hbeq, Bool.false_eq_true, if_false]
      simp only [scoresGet, List.find?_cons, hbeq] at ih ⊢
      exact ih

theorem addScore_get_other (d : ScoreDict) (sp sp' : String) (c : ℚ) (hne : sp' ≠ sp) :
    scoresGet (addScore d sp c) sp' = scoresGet d sp' := by
  induction d with
  | nil =>
    simp [addScore, scoresGet, List.find?, beq_eq_false_iff_ne.mpr (fun h => hne h.symm)]
  | cons h t ih =>
    obtain ⟨k, vs⟩ := h
    by_cases hk : k = sp
    · subst hk
      have hbeq : (k == sp') = false := beq_eq_false_iff_ne.mpr (fun h => hne h.symm)
      simp [addScore, scoresGet, List.find?_cons, hbeq]
    · have hbeq : (k == sp) = false := beq_eq_false_iff_ne.mpr hk
      simp only [addScore, hbeq, Bool.false_eq_true, if_false]
      by_cases hk' : k = sp'
      · subst hk'
        simp [scoresGet, List.find?_cons]
      · have hbeq' : (k == sp') = false := beq_eq_false_iff_ne.mpr hk'
        simp only [scoresGet, List.find?_cons, hbeq'] at ih ⊢
        exact ih

theorem valIn_addScore {sp' : String} {c' : ℚ} {d : ScoreDict} (sp : String) (c : ℚ)
    (h : valIn sp' c' d) : valIn sp' c' (addScore d sp c) := by
  obtain ⟨vs, hget, hc⟩ := h
  by_cases hsp : sp' = sp
  · subst hsp
    refine ⟨vs ++ [c], ?_, List.mem_append_left _ hc⟩
    rw [addScore_get_same, hget]
    rfl
  · exact ⟨vs, by rw [addScore_get_other _ _ _ _ hsp]; exact hget, hc⟩

theorem valIn_addScore_self (d : ScoreDict) (sp : String) (c : ℚ) :
    valIn sp c (addScore d sp c) :=
  ⟨((scoresGet d sp).getD []) ++ [c], addScore_get_same d sp c,
    List.mem_append_right _ (List.mem_singleton_self c)⟩

theorem mem_keys_addScore (d : ScoreDict) (sp : String) (c : ℚ) :
    sp ∈ keysOf (addScore d sp c) := by
  rw [addScore_keys]
  by_cases h : sp ∈ keysOf d
  · rwa [if_pos h]
  · rw [if_neg h]
    exact List.mem_append_right _ (List.mem_singleton_self sp)

theorem keys_front_addScore (d : ScoreDict) (sp : String) (c : ℚ) :
    keysOf d <+: keysOf (addScore d sp c) := by
  rw [addScore_keys]
  by_cases h : sp ∈ keysOf d
  · rw [if_pos h]
  · rw [if_neg h]
    exact ⟨[sp], rfl⟩

theorem mem_keys_mono_addScore {k : String} {d : ScoreDict} (sp : String) (c : ℚ)
    (h : k ∈ keysOf d) : k ∈ keysOf (addScore d sp c) :=
  (keys_front_addScore d sp c).subset h

theorem keys_nodup_addScore {d : ScoreDict} (sp : String) (c : ℚ)
    (h : (keysOf d).Nodup) : (keysOf (addScore d sp c)).Nodup := by
  rw [addScore_keys]
  by_cases hm : sp ∈ keysOf d
  · rwa [if_pos hm]
  · rw [if_neg hm]
    simp [List.nodup_append, h, hm]

theorem keys_addScore_sub {k : String} {d : ScoreDict} {sp : String} {c : ℚ}
    (h : k ∈ keysOf (addScore d sp c)) : k ∈ keysOf d ∨ k = sp := by
  rw [addScore_keys] at h
  by_cases hm : sp ∈ keysOf d
  · rw [if_pos hm] at h
    exact .inl h
  · rw [if_neg hm] at h
    rcases List.mem_append.mp h with h1 | h1
    · exact .inl h1
    · exact .inr (List.mem_singleton.mp h1)


section FoldLemmas

variable {f : RouteAcc → (String × ℚ) → RouteAcc}

theorem foldr_keys_front (hf : ∀ a m, (f a m).scores = addScore a.scores m.1 m.2)
    (rs : List (String × ℚ)) (acc : RouteAcc) :
    keysOf acc.scores <+: keysOf ((rs.foldl f acc).scores) := by
  induction rs generalizing acc with
  | nil => exact List.prefix_refl _
  | cons m t ih =>
    refine List.IsPrefix.trans ?_ (ih (f acc m))
    rw [hf]
    exact keys_front_addScore _ _ _

theorem foldr_keys_sub (hf : ∀ a m, (f a m).scores = addScore a.scores m.1 m.2)
    (rs : List (String × ℚ)) (acc : RouteAcc) :
    ∀ k ∈ keysOf ((rs.foldl f acc).scores),
      k ∈ keysOf acc.scores ∨ ∃ m ∈ rs, k = m.1 := by
  induction rs generalizing acc with
  | nil => exact fun k hk => .inl hk
  | cons m t ih =>
    intro k hk
    rcases ih (f acc m) k hk with h1 | h1
    · rw [hf] at h1
      rcases keys_addScore_sub h1 with h2 | h2
      · exact .inl h2
      · exact .inr ⟨m, List.mem_cons_self m t, h2⟩
    · obtain ⟨m', hm', hk'⟩ := h1
      exact .inr ⟨m', List.mem_cons_of_mem _ hm', hk'⟩

theorem foldr_keys_nodup (hf : ∀ a m, (f a m).scores = addScore a.scores m.1 m.2)
    (rs : List (String × ℚ)) (acc : RouteAcc)
    (h : (keysOf acc.scores).Nodup) : (keysOf ((rs.foldl f acc).scores)).Nodup := by
  induction rs generalizing acc with
  | nil => exact h
  | cons m t ih =>
    refine ih (f acc m) ?_
    rw [hf]
    exact keys_nodup_addScore _ _ h

theorem foldr_keys_mem (hf : ∀ a m, (f a m).scores = addScore a.scores m.1 m.2)
    (rs : List (String × ℚ)) (acc : RouteAcc) :
    ∀ m ∈ rs, m.1 ∈ keysOf ((rs.foldl f acc).scores) := by
  induction rs generalizing acc with
  | nil => intro m hm; simp at hm
  | cons m t ih =>
    intro m' hm'
    rcases List.mem_cons.mp hm' with h1 | h1
    · subst h1
      refine (foldr_keys_front hf t (f acc m')).subset ?_
      rw [hf]
      exact mem_keys_addScore _ _ _
    · exact ih (f acc m) m' h1

theorem foldr_valIn_mono (hf : ∀ a m, (f a m).scores = addScore a.scores m.1 m.2)
    (rs : List (String × ℚ)) (acc : RouteAcc) {sp : String} {c : ℚ}
    (h : valIn sp c acc.scores) : valIn sp c ((rs.foldl f acc).scores) := by
  induction rs generalizing acc with
  | nil => exact h
  | cons m t ih =>
    refine ih (f acc m) ?_
    rw [hf]
    exact valIn_addScore _ _ h

theorem foldr_valIn_mem (hf : ∀ a m, (f a m).scores = addScore a.scores m.1 m.2)
    (rs : List (String × ℚ)) (acc : RouteAcc) :
    ∀ m ∈ rs, valIn m.1 m.2 ((rs.foldl f acc).scores) := by
  induction rs generalizing acc with
  | nil => intro m hm; simp at hm
  | cons m t ih =>
    intro m' hm'
    rcases List.mem_cons.mp hm' with h1 | h1
    · subst h1
      refine foldr_valIn_mono hf t (f acc m') ?_
      rw [hf]
      exact valIn_addScore_self _ _ _
    · exact ih (f acc m) m' h1

end FoldLemmas

theorem accumKeyword_keys_front (kw : String) (acc : RouteAcc) :
    keysOf acc.scores <+: keysOf ((accumKeyword acc kw).scores) :=
  foldr_keys_front (fun _ _ => rfl) _ acc

theorem kwFold_keys_front (l : List String) (acc : RouteAcc) :
    keysOf acc.scores <+: keysOf ((l.foldl accumKeyword acc).scores) := by
  induction l generalizing acc with
  | nil => exact List.prefix_refl _
  | cons kw t ih => exact (accumKeyword_keys_front kw acc).trans (ih (accumKeyword acc kw))

theorem kwFold_keys_sub (l : List String) (acc : RouteAcc) :
    ∀ k ∈ keysOf ((l.foldl accumKeyword acc).scores),
      k ∈ keysOf acc.scores ∨ ∃ kw ∈ l, ∃ m ∈ querySpecialtyForKeyword kw, k = m.1 := by
  induction l generalizing acc with
  | nil => exact fun k hk => .inl hk
  | cons kw t ih =>
    intro k hk
    rcases ih (accumKeyword acc kw) k hk with h1 | h1
    · rcases foldr_keys_sub (fun _ _ => rfl) _ acc k h1 with h2 | h2
      · exact .inl h2
      · obtain ⟨m, hm, hk'⟩ := h2
        exact .inr ⟨kw, List.mem_cons_self kw t, m, hm, hk'⟩
    · obtain ⟨kw', hkw', hrest⟩ := h1
      exact .inr ⟨kw', List.mem_cons_of_mem _ hkw', hrest⟩

theorem kwFold_keys_nodup (l : List String) (acc : RouteAcc)
    (h : (keysOf acc.scores).Nodup) : (keysOf ((l.foldl accumKeyword acc).scores)).Nodup := by
  induction l generalizing acc with
  | nil => exact h
  | cons kw t ih =>
    exact ih (accumKeyword acc kw) (foldr_keys_nodup (fun _ _ => rfl) _ acc h)

theorem kwFold_keys_mem (l : List String) (acc : RouteAcc) :
    ∀ kw ∈ l, ∀ m ∈ querySpecialtyForKeyword kw,
      m.1 ∈ keysOf ((l.foldl accumKeyword acc).scores) := by
  induction l generalizing acc with
  | nil => intro kw hkw; simp at hkw
  | cons kw t ih =>
    intro kw' hkw' m hm
    rcases List.mem_cons.mp hkw' with h1 | h1
    · subst h1
      exact (kwFold_keys_front t (accumKeyword acc kw')).subset
        (foldr_keys_mem (fun _ _ => rfl) _ acc m hm)
    · exact ih (accumKeyword acc kw) kw' h1 m hm

theorem kwFold_valIn_mono (l : List String) (acc : RouteAcc) {sp : String} {c : ℚ}
    (h : valIn sp c acc.scores) : valIn sp c ((l.foldl accumKeyword acc).scores) := by
  induction l generalizing acc with
  | nil => exact h
  | cons kw t ih =>
    exact ih (accumKeyword acc kw) (foldr_valIn_mono (fun _ _ => rfl) _ acc h)

theorem kwFold_valIn_mem (l : List String) (acc : RouteAcc) :
    ∀ kw ∈ l, ∀ m ∈ querySpecialtyForKeyword kw,
      valIn m.1 m.2 ((l.foldl accumKeyword acc).scores) := by
  induction l generalizing acc with
  | nil => intro kw hkw; simp at hkw
  | cons kw t ih =>
    intro kw' hkw' m hm
    rcases List.mem_cons.mp hkw' with h1 | h1
    · subst h1
      exact kwFold_valIn_mono t (accumKeyword acc kw')
        (foldr_valIn_mem (fun _ _ => rfl) _ acc m hm)
    · exact ih (accumKeyword acc kw) kw' h1 m hm

theorem tail_sublist_singleton {base tail : List String} {sp : String}
    (hnd : (base ++ tail).Nodup) (h : ∀ k ∈ tail, k ∈ base ∨ k = sp) :
    List.Sublist tail [sp] := by
  cases tail with
  | nil => exact List.nil_sublist _
  | cons k t =>
    have hdisj : List.Disjoint base (k :: t) := (List.nodup_append.mp hnd).2.2
    have hk : k = sp := by
      rcases h k (List.mem_cons_self k t) with h1 | h1
      · exact absurd (List.mem_cons_self k t) (hdisj h1)
      · exact h1
    subst hk
    have hndtail : (k :: t).Nodup := (List.nodup_append.mp hnd).2.1
    have ht : t = [] := by
      cases t with
      | nil => rfl
      | cons j t' =>
        have hj : j = k := by
          rcases h j (List.mem_cons_of_mem _ (List.mem_cons_self j t')) with h1 | h1
          · exact absurd (List.mem_cons_of_mem _ (List.mem_cons_self j t')) (hdisj h1)
          · exact h1
        subst hj
        exact absurd (List.mem_cons_self j t') ((List.nodup_cons.mp hndtail).1).elim
    subst ht
    exact List.Sublist.refl _

theorem kwFold_group (l : List String) (acc : RouteAcc) (sp : String)
    (hu : ∀ kw ∈ l, ∀ m ∈ querySpecialtyForKeyword kw, m.1 = sp)
    (hnd : (keysOf acc.scores).Nodup) :
    ∃ tail, keysOf ((l.foldl accumKeyword acc).scores) = keysOf acc.scores ++ tail
      ∧ List.Sublist tail [sp] := by
  obtain ⟨tail, htail⟩ := kwFold_keys_front l acc
  refine ⟨tail, htail.symm, ?_⟩
  have hnd' : (keysOf acc.scores ++ tail).Nodup := by
    rw [htail]
    exact kwFold_keys_nodup l acc hnd
  refine tail_sublist_singleton hnd' ?_
  intro k hk
  have hkmem : k ∈ keysOf ((l.foldl accumKeyword acc).scores) := by
    rw [← htail]
    exact List.mem_append_right _ hk
  rcases kwFold_keys_sub l acc k hkmem with h1 | h1
  · exact .inl h1
  · obtain ⟨kw, hkw, m, hm, hk'⟩ := h1
    exact .inr (hk' ▸ hu kw hkw m hm)


theorem cardiacKeywords_uniform :
    ∀ kw ∈ ["chest_pain", "palpitations", "shortness_of_breath", "heart", "exertional"],
      ∀ m ∈ querySpecialtyForKeyword kw, m.1 = "cardiology" := by
  decide

theorem neuroKeywords_uniform :
    ∀ kw ∈ ["headache", "dizziness", "seizure", "numbness", "weakness", "vision_changes"],
      ∀ m ∈ querySpecialtyForKeyword kw, m.1 = "neurology" := by
  decide

theorem dermaKeywords_uniform :
    ∀ kw ∈ ["rash", "skin_lesion", "itching"],
      ∀ m ∈ querySpecialtyForKeyword kw, m.1 = "dermatology" := by
  decide

theorem ite_singleton_sublist (c : Prop) [Decidable c] (a : String) :
    List.Sublist (if c then [a] else []) [a] := by
  split
  · exact List.Sublist.refl _
  · exact List.nil_sublist _

theorem cardiacChecks_sublist (sl : List Char) :
    List.Sublist (cardiacKeywordChecks sl)
      ["chest_pain", "palpitations", "shortness_of_breath", "heart", "exertional"] := by
  have h := ((((ite_singleton_sublist (anyWord sl ["chest", "pain", "hurt", "pressure", "tight"] = true) "chest_pain").append
    (ite_singleton_sublist (anyWord sl ["palpitation", "racing", "flutter", "irregular", "skip"] = true) "palpitations")).append
    (ite_singleton_sublist (anyWord sl ["breath", "breathing", "short", "dyspnea"] = true) "shortness_of_breath")).append
    (ite_singleton_sublist (anyWord sl ["heart", "cardiac"] = true) "heart")).append
    (ite_singleton_sublist (anyWord sl ["exercise", "exertion", "activity", "walking", "stairs", "exertional"] = true) "exertional")
  exact h

theorem neuroChecks_sublist (sl : List Char) :
    List.Sublist (neuroKeywordChecks sl)
      ["headache", "dizziness", "seizure", "numbness", "weakness", "vision_changes"] := by
  have h := (((((ite_singleton_sublist (anyWord sl ["headache", "head", "migraine", "cephalalgia"] = true) "headache").append
    (ite_singleton_sublist (anyWord sl ["dizzy", "dizziness", "vertigo", "spinning", "lightheaded"] = true) "dizziness")).append
    (ite_singleton_sublist (anyWord sl ["seizure", "convulsion", "fit", "epilep"] = true) "seizure")).append
    (ite_singleton_sublist (anyWord sl ["numb", "numbness", "tingling", "pins", "needles"] = true) "numbness")).append
    (ite_singleton_sublist (anyWord sl ["weak", "weakness", "paralysis", "cant move"] = true) "weakness")).append
    (ite_singleton_sublist (anyWord sl ["vision", "seeing", "sight", "blurry", "double"] = true) "vision_changes")
  exact h

theorem dermaChecks_sublist (sl : List Char) :
    List.Sublist (dermaKeywordChecks sl) ["rash", "skin_lesion", "itching"] := by
  have h := ((ite_singleton_sublist (anyWord sl ["rash", "spots", "hives", "eruption"] = true) "rash").append
    (ite_singleton_sublist (anyWord sl ["skin", "lesion", "mole", "growth", "bump"] = true) "skin_lesion")).append
    (ite_singleton_sublist (anyWord sl ["itch", "itching", "itchy", "scratch"] = true) "itching")
  exact h


theorem sublist_singleton_cases {t : List String} {a : String}
    (h : List.Sublist t [a]) : t = [] ∨ t = [a] := by
  cases t with
  | nil => exact .inl rfl
  | cons x t' =>
    right
    cases h with
    | cons _ h1 => exact absurd h1 (by simp)
    | cons₂ _ h1 => rw [List.sublist_nil.mp h1]

theorem combo_keys_eq (acc : RouteAcc) (ck spc : String)
    (hu : ∀ m ∈ querySymptomCombo ck, m.1 = spc)
    (hspc : spc ∈ keysOf acc.scores)
    (hnd : (keysOf acc.scores).Nodup) :
    keysOf ((accumCombo acc ck).scores) = keysOf acc.scores := by
  obtain ⟨tail, htail⟩ := foldr_keys_front (f := fun a m =>
      { a with scores := addScore a.scores m.1 m.2, rules := a.rules + 1 })
      (fun _ _ => rfl) (querySymptomCombo ck) acc
  have hnd' : (keysOf acc.scores ++ tail).Nodup := by
    rw [htail]
    exact foldr_keys_nodup (fun _ _ => rfl) _ acc hnd
  have hsub : List.Sublist tail [spc] := by
    refine tail_sublist_singleton hnd' ?_
    intro k hk
    have hkmem : k ∈ keysOf ((accumCombo acc ck).scores) := by
      show k ∈ keysOf (((querySymptomCombo ck).foldl _ acc).scores)
      rw [← htail]
      exact List.mem_append_right _ hk
    rcases foldr_keys_sub (fun _ _ => rfl) (querySymptomCombo ck) acc k hkmem with h1 | h1
    · exact .inl h1
    · obtain ⟨m, hm, hk'⟩ := h1
      exact .inr (hk' ▸ hu m hm)
  have htnil : tail = [] := by
    rcases sublist_singleton_cases hsub with h1 | h1
    · exact h1
    · subst h1
      exact absurd hnd' (by simp [List.nodup_append, hspc])
  show keysOf (((querySymptomCombo ck).foldl _ acc).scores) = _
  rw [← htail, htnil, List.append_nil]

theorem extract_empty_case {s : String} (hemp : (extractSymptomKeywordsRaw s).isEmpty = true) :
    extractSymptomKeywords s = ["general"] := by
  simp [extractSymptomKeywords, hemp]

theorem extract_nonempty_case {s : String}
    (hemp : ¬ (extractSymptomKeywordsRaw s).isEmpty = true) :
    extractSymptomKeywords s = extractSymptomKeywordsRaw s := by
  simp [extractSymptomKeywords, hemp]

theorem acc1_keys_nodup (s : String) :
    (keysOf (((extractSymptomKeywords s).foldl accumKeyword ⟨[], [], 0⟩).scores)).Nodup :=
  kwFold_keys_nodup _ _ (by simp [keysOf])

theorem acc1_keys_sublist (s : String) :
    List.Sublist (keysOf (((extractSymptomKeywords s).foldl accumKeyword ⟨[], [], 0⟩).scores))
      ["cardiology", "neurology", "dermatology"] := by
  by_cases hemp : (extractSymptomKeywordsRaw s).isEmpty = true
  · rw [extract_empty_case hemp]
    show List.Sublist ([] : List String) _
    exact List.nil_sublist _
  · rw [extract_nonempty_case hemp]
    have hraw : extractSymptomKeywordsRaw s
        = cardiacKeywordChecks (lowerChars s) ++ neuroKeywordChecks (lowerChars s)
          ++ dermaKeywordChecks (lowerChars s) := rfl
    rw [hraw, List.foldl_append, List.foldl_append]
    have hu_c : ∀ kw ∈ cardiacKeywordChecks (lowerChars s),
        ∀ m ∈ querySpecialtyForKeyword kw, m.1 = "cardiology" :=
      fun kw hkw => cardiacKeywords_uniform kw ((cardiacChecks_sublist _).subset hkw)
    have hu_n : ∀ kw ∈ neuroKeywordChecks (lowerChars s),
        ∀ m ∈ querySpecialtyForKeyword kw, m.1 = "neurology" :=
      fun kw hkw => neuroKeywords_uniform kw ((neuroChecks_sublist _).subset hkw)
    have hu_d : ∀ kw ∈ dermaKeywordChecks (lowerChars s),
        ∀ m ∈ querySpecialtyForKeyword kw, m.1 = "dermatology" :=
      fun kw hkw => dermaKeywords_uniform kw ((dermaChecks_sublist _).subset hkw)
    have hnd0 : (keysOf (RouteAcc.scores ⟨[], [], 0⟩)).Nodup := by simp [keysOf]
    obtain ⟨tc, htc, hsc⟩ := kwFold_group (cardiacKeywordChecks (lowerChars s)) ⟨[], [], 0⟩
      "cardiology" hu_c hnd0
    have hndC := kwFold_keys_nodup (cardiacKeywordChecks (lowerChars s)) ⟨[], [], 0⟩ hnd0
    obtain ⟨tn, htn, hsn⟩ := kwFold_group (neuroKeywordChecks (lowerChars s)) _ "neurology"
      hu_n hndC
    have hndN := kwFold_keys_nodup (neuroKeywordChecks (lowerChars s)) _ hndC
    obtain ⟨td, htd, hsd⟩ := kwFold_group (dermaKeywordChecks (lowerChars s)) _ "dermatology"
      hu_d hndN
    rw [htd, htn, htc]
    show List.Sublist ((([] : List String) ++ tc ++ tn) ++ td) _
    rw [List.nil_append]
    exact ((hsc.append hsn).append hsd)


theorem scoresAcc_keys (s : String) :
    List.Sublist (keysOf ((scoresAcc s).scores)) ["cardiology", "neurology", "dermatology"]
    ∧ (keysOf ((scoresAcc s).scores)).Nodup := by
  cases hck : detectSymptomCombinations (extractSymptomKeywords s) with
  | none =>
    have hsa : scoresAcc s = (extractSymptomKeywords s).foldl accumKeyword ⟨[], [], 0⟩ := by
      simp only [scoresAcc, hck]
    rw [hsa]
    exact ⟨acc1_keys_sublist s, acc1_keys_nodup s⟩
  | some ck =>
    have hsa : scoresAcc s
        = accumCombo ((extractSymptomKeywords s).foldl accumKeyword ⟨[], [], 0⟩) ck := by
      simp only [scoresAcc, hck]
    have hkeq : keysOf ((scoresAcc s).scores)
        = keysOf (((extractSymptomKeywords s).foldl accumKeyword ⟨[], [], 0⟩).scores) := by
      rw [hsa]
      unfold detectSymptomCombinations at hck
      split_ifs at hck with h1 h2 h3 h4 h5 h6
      · cases Option.some.inj hck
        refine combo_keys_eq _ _ "cardiology" (by decide) ?_ (acc1_keys_nodup s)
        rw [Bool.and_eq_true] at h1
        exact kwFold_keys_mem _ _ "chest_pain" (by simpa using h1.1) ("cardiology", 0.90)
          (by rw [show querySpecialtyForKeyword "chest_pain" = [("cardiology", 0.90)] from rfl]
              exact List.mem_singleton_self _)
      · cases Option.some.inj hck
        refine combo_keys_eq _ _ "cardiology" (by decide) ?_ (acc1_keys_nodup s)
        rw [Bool.and_eq_true] at h2
        exact kwFold_keys_mem _ _ "chest_pain" (by simpa using h2.1) ("cardiology", 0.90)
          (by rw [show querySpecialtyForKeyword "chest_pain" = [("cardiology", 0.90)] from rfl]
              exact List.mem_singleton_self _)
      · cases Option.some.inj hck
        refine combo_keys_eq _ _ "cardiology" (by decide) ?_ (acc1_keys_nodup s)
        rw [Bool.and_eq_true] at h3
        exact kwFold_keys_mem _ _ "palpitations" (by simpa using h3.2) ("cardiology", 0.85)
          (by rw [show querySpecialtyForKeyword "palpitations" = [("cardiology", 0.85)] from rfl]
              exact List.mem_singleton_self _)
      · cases Option.some.inj hck
        refine combo_keys_eq _ _ "neurology" (by decide) ?_ (acc1_keys_nodup s)
        rw [Bool.and_eq_true] at h4
        exact kwFold_keys_mem _ _ "headache" (by simpa using h4.1) ("neurology", 0.75)
          (by rw [show querySpecialtyForKeyword "headache" = [("neurology", 0.75)] from rfl]
              exact List.mem_singleton_self _)
      · cases Option.some.inj hck
        refine combo_keys_eq _ _ "neurology" (by decide) ?_ (acc1_keys_nodup s)
        rw [Bool.and_eq_true] at h5
        exact kwFold_keys_mem _ _ "numbness" (by simpa using h5.1) ("neurology", 0.80)
          (by rw [show querySpecialtyForKeyword "numbness" = [("neurology", 0.80)] from rfl]
              exact List.mem_singleton_self _)
      · cases Option.some.inj hck
        refine combo_keys_eq _ _ "dermatology" (by decide) ?_ (acc1_keys_nodup s)
        rw [Bool.and_eq_true] at h6
        exact kwFold_keys_mem _ _ "rash" (by simpa using h6.1) ("dermatology", 0.90)
          (by rw [show querySpecialtyForKeyword "rash" = [("dermatology", 0.90)] from rfl]
              exact List.mem_singleton_self _)
    rw [hkeq]
    exact ⟨acc1_keys_sublist s, acc1_keys_nodup s⟩

theorem finalScores_keys_eq (s : String) :
    List.map Prod.fst (finalScoresOf s) = keysOf ((scoresAcc s).scores) := by
  simp [finalScoresOf, keysOf, List.map_map, Function.comp]

theorem priority_pairwise :
    (["cardiology", "neurology", "dermatology"] : List String).Pairwise
      (fun x y => prio x < prio y) := by
  decide

theorem finalScores_pairwise (s : String) :
    (List.map Prod.fst (finalScoresOf s)).Pairwise (fun x y => prio x < prio y) := by
  rw [finalScores_keys_eq]
  exact List.Pairwise.sublist (scoresAcc_keys s).1 priority_pairwise

theorem pyFold_first_max (t : List (String × ℚ)) (h : String × ℚ) :
    ∃ pre post,
      h :: t = pre ++ (t.foldl (fun acc x => if acc.2 < x.2 then x else acc) h) :: post
      ∧ (∀ x ∈ pre, x.2 < (t.foldl (fun acc x => if acc.2 < x.2 then x else acc) h).2)
      ∧ (∀ x ∈ h :: t, x.2 ≤ (t.foldl (fun acc x => if acc.2 < x.2 then x else acc) h).2) := by
  induction t generalizing h with
  | nil => exact ⟨[], [], rfl, by simp, by simp⟩
  | cons b t' ih =>
    by_cases hlt : h.2 < b.2
    · obtain ⟨pre', post', heq, hpre, hall⟩ := ih b
      have hstep : (b :: t').foldl (fun acc x => if acc.2 < x.2 then x else acc) h
          = t'.foldl (fun acc x => if acc.2 < x.2 then x else acc) b := by
        rw [List.foldl_cons, if_pos hlt]
      rw [hstep]
      have hbM : b.2 ≤ (t'.foldl (fun acc x => if acc.2 < x.2 then x else acc) b).2 :=
        hall b (List.mem_cons_self b t')
      refine ⟨h :: pre', post', by rw [List.cons_append, heq], ?_, ?_⟩
      · intro x hx
        rcases List.mem_cons.mp hx with h1 | h1
        · subst h1
          exact lt_of_lt_of_le hlt hbM
        · exact hpre x h1
      · intro x hx
        rcases List.mem_cons.mp hx with h1 | h1
        · subst h1
          exact le_of_lt (lt_of_lt_of_le hlt hbM)
        · exact hall x h1
    · obtain ⟨pre', post', heq, hpre, hall⟩ := ih h
      have hstep : (b :: t').foldl (fun acc x => if acc.2 < x.2 then x else acc) h
          = t'.foldl (fun acc x => if acc.2 < x.2 then x else acc) h := by
        rw [List.foldl_cons, if_neg hlt]
      rw [hstep]
      have hbh : b.2 ≤ h.2 := le_of_not_lt hlt
      have hhM : h.2 ≤ (t'.foldl (fun acc x => if acc.2 < x.2 then x else acc) h).2 :=
        hall h (List.mem_cons_self h t')
      cases pre' with
      | nil =>
        simp only [List.nil_append] at heq
        have hinj := (List.cons.injEq _ _ _ _).mp heq
        refine ⟨[], b :: t', ?_, by simp, ?_⟩
        · rw [List.nil_append, ← hinj.1]
        · intro x hx
          rcases List.mem_cons.mp hx with h1 | h1
          · subst h1
            exact hhM
          · rcases List.mem_cons.mp h1 with h2 | h2
            · subst h2
              exact le_trans hbh hhM
            · exact hall x (List.mem_cons_of_mem _ h2)
      | cons p pre'' =>
        have hp : h = p ∧ t' = pre'' ++ (t'.foldl (fun acc x => if acc.2 < x.2 then x else acc) h) :: post' := by
          rw [List.cons_append] at heq
          exact ⟨(List.cons.injEq _ _ _ _).mp heq |>.1, (List.cons.injEq _ _ _ _).mp heq |>.2⟩
        obtain ⟨hp1, hp2⟩ := hp
        refine ⟨h :: b :: pre'', post', ?_, ?_, ?_⟩
        · rw [List.cons_append, List.cons_append, ← hp2]
        · intro x hx
          rcases List.mem_cons.mp hx with h1 | h1
          · subst h1
            have hpp := hpre p (List.mem_cons_self p pre'')
            rwa [← hp1] at hpp
          · rcases List.mem_cons.mp h1 with h2 | h2
            · subst h2
              have hpp := hpre p (List.mem_cons_self p pre'')
              rw [← hp1] at hpp
              exact lt_of_le_of_lt hbh hpp
            · exact hpre x (List.mem_cons_of_mem _ h2)
        · intro x hx
          rcases List.mem_cons.mp hx with h1 | h1
          · subst h1
            exact hhM
          · rcases List.mem_cons.mp h1 with h2 | h2
            · subst h2
              exact le_trans hbh hhM
            · exact hall x (List.mem_cons_of_mem _ h2)


/-- Claim C4: the routing tie-break is deterministic and follows the fixed
priority order `["cardiology", "neurology", "dermatology"]`: whenever a
specialty attains the maximal score, the recommended specialty also attains
that score and sits no later in the priority order.  (Determinism across runs
is intrinsic: `routeSymptoms` is a pure function of its inputs.) -/
theorem route_c4 (s : String) (a : Option ℕ) (sp : String) (v : ℚ)
    (hmem : (sp, v) ∈ (routeSymptoms s a).all_specialty_scores)
    (hmax : ∀ p ∈ (routeSymptoms s a).all_specialty_scores, p.2 ≤ v) :
    ((routeSymptoms s a).recommended_specialty, v) ∈ (routeSymptoms s a).all_specialty_scores
    ∧ prio (routeSymptoms s a).recommended_specialty ≤ prio sp := by
  have hfs : (routeSymptoms s a).all_specialty_scores = finalScoresOf s := rfl
  rw [hfs] at hmem hmax ⊢
  cases hfsc : finalScoresOf s with
  | nil =>
    rw [hfsc] at hmem
    cases hmem
  | cons hd tl =>
    rw [hfsc] at hmem hmax
    have hrec : (routeSymptoms s a).recommended_specialty
        = (match pyMaxByVal (finalScoresOf s) with
           | some p => p
           | none => (("cardiology", 0.50) : String × ℚ)).1 := rfl
    rw [hfsc] at hrec
    have hrecM : (routeSymptoms s a).recommended_specialty
        = (tl.foldl (fun acc x => if acc.2 < x.2 then x else acc) hd).1 := hrec
    obtain ⟨pre, post, heq, hpre, hall⟩ := pyFold_first_max tl hd
    have hMmem : (tl.foldl (fun acc x => if acc.2 < x.2 then x else acc) hd) ∈ hd :: tl := by
      rw [heq]
      exact List.mem_append_right pre (List.mem_cons_self _ _)
    have hMv : (tl.foldl (fun acc x => if acc.2 < x.2 then x else acc) hd).2 = v :=
      le_antisymm (hmax _ hMmem) (hall (sp, v) hmem)
    constructor
    · rw [hrecM, ← hMv]
      simpa using hMmem
    · rw [heq] at hmem
      rcases List.mem_append.mp hmem with h1 | h1
      · exact absurd (hpre _ h1) (by rw [hMv]; exact lt_irrefl v)
      · rcases List.mem_cons.mp h1 with heq2 | h1
        · rw [hrecM, show sp = (tl.foldl (fun acc x => if acc.2 < x.2 then x else acc) hd).1
            from congrArg Prod.fst heq2]
        · have hpw := finalScores_pairwise s
          rw [hfsc, heq, List.map_append, List.map_cons] at hpw
          have h3 := (List.pairwise_cons.mp (List.pairwise_append.mp hpw).2.1).1
          have hsp : sp ∈ List.map Prod.fst post := List.mem_map_of_mem Prod.fst h1
          rw [hrecM]
          exact le_of_lt (h3 sp hsp)


theorem foldl_max_spec (t : List ℚ) (a : ℚ) :
    a ≤ t.foldl max a ∧ ∀ v ∈ t, v ≤ t.foldl max a := by
  induction t generalizing a with
  | nil => exact ⟨le_refl a, by simp⟩
  | cons b t' ih =>
    simp only [List.foldl_cons]
    obtain ⟨h1, h2⟩ := ih (max a b)
    refine ⟨le_trans (le_max_left a b) h1, ?_⟩
    intro v hv
    rcases List.mem_cons.mp hv with h3 | h3
    · rw [h3]
      exact le_trans (le_max_right a b) h1
    · exact h2 v h3

theorem maxListQ_ge {l : List ℚ} {v : ℚ} (hv : v ∈ l) : v ≤ maxListQ l := by
  cases l with
  | nil => cases hv
  | cons a t =>
    rcases List.mem_cons.mp hv with h1 | h1
    · exact h1 ▸ (foldl_max_spec t a).1
    · exact (foldl_max_spec t a).2 v h1

theorem valIn_finalScores {s : String} {sp : String} {c : ℚ}
    (h : valIn sp c ((scoresAcc s).scores)) :
    ∃ w, (sp, w) ∈ finalScoresOf s ∧ c ≤ w := by
  obtain ⟨vs, hget, hc⟩ := h
  rw [scoresGet, Option.map_eq_some'] at hget
  obtain ⟨p, hfind, hp2⟩ := hget
  have hpmem := List.mem_of_find?_eq_some hfind
  have hp1 : p.1 = sp := by
    have := List.find?_some hfind
    simpa using this
  refine ⟨maxListQ p.2, ?_, hp2 ▸ maxListQ_ge hc⟩
  rw [← hp1]
  exact List.mem_map_of_mem (fun q => (q.1, maxListQ q.2)) hpmem

theorem scoresAcc_valIn {s : String} {sp : String} {c : ℚ}
    (h : valIn sp c (((extractSymptomKeywords s).foldl accumKeyword ⟨[], [], 0⟩).scores)) :
    valIn sp c ((scoresAcc s).scores) := by
  cases hck : detectSymptomCombinations (extractSymptomKeywords s) with
  | none => simpa only [scoresAcc, hck] using h
  | some ck =>
    have hsa : scoresAcc s
        = accumCombo ((extractSymptomKeywords s).foldl accumKeyword ⟨[], [], 0⟩) ck := by
      simp only [scoresAcc, hck]
    rw [hsa]
    exact foldr_valIn_mono (fun _ _ => rfl) _ _ h

theorem extract_chestPain {s : String}
    (h : anyWord (lowerChars s) ["chest", "pain", "hurt", "pressure", "tight"] = true) :
    "chest_pain" ∈ extractSymptomKeywords s := by
  have hmem_raw : "chest_pain" ∈ extractSymptomKeywordsRaw s := by
    simp [extractSymptomKeywordsRaw, cardiacKeywordChecks, h]
  have hne : (extractSymptomKeywordsRaw s).isEmpty = false := by
    cases hr : extractSymptomKeywordsRaw s with
    | nil => rw [hr] at hmem_raw; cases hmem_raw
    | cons x t => rfl
  unfold extractSymptomKeywords
  simp only [hne, Bool.false_eq_true, if_false]
  exact hmem_raw

/-- Claim C10: any input containing `chest`, `pain`, `hurt`, `pressure` or
`tight` receives the `chest_pain` keyword, whose only routing fact gives
cardiology weight 0.90, so cardiology's final routing score is at least
0.90 — even for purely musculoskeletal pain. -/
theorem route_c10 (s : String) (a : Option ℕ)
    (h : anyWord (lowerChars s) ["chest", "pain", "hurt", "pressure", "tight"] = true) :
    "chest_pain" ∈ extractSymptomKeywords s
    ∧ querySpecialtyForKeyword "chest_pain" = [("cardiology", 0.90)]
    ∧ ∃ w, ("cardiology", w) ∈ (routeSymptoms s a).all_specialty_scores ∧ 0.90 ≤ w := by
  have hkw := extract_chestPain h
  refine ⟨hkw, rfl, ?_⟩
  have hpm : (("cardiology", 0.90) : String × ℚ) ∈ querySpecialtyForKeyword "chest_pain" := by
    rw [show querySpecialtyForKeyword "chest_pain" = [("cardiology", 0.90)] from rfl]
    exact List.mem_singleton_self _
  have hval : valIn "cardiology" 0.90
      (((extractSymptomKeywords s).foldl accumKeyword ⟨[], [], 0⟩).scores) :=
    kwFold_valIn_mem _ _ "chest_pain" hkw ("cardiology", 0.90) hpm
  have hfs : (routeSymptoms s a).all_specialty_scores = finalScoresOf s := rfl
  rw [hfs]
  exact valIn_finalScores (scoresAcc_valIn hval)

/-- Witness for C10: `"my knee hurts"` gives cardiology a score ≥ 0.90. -/
theorem route_c10_witness :
    "chest_pain" ∈ extractSymptomKeywords "my knee hurts"
    ∧ querySpecialtyForKeyword "chest_pain" = [("cardiology", 0.90)]
    ∧ ∃ w, ("cardiology", w) ∈ (routeSymptoms "my knee hurts" none).all_specialty_scores
        ∧ 0.90 ≤ w :=
  route_c10 "my knee hurts" none (by decide)

/-- Claim C7, amended: when the keyword extractor recognises no symptom tags
(keyword list `["general"]`), the router returns specialty `cardiology` with
confidence 0.50; the urgency is the 0.50 default **plus any age and severity
modifiers**, so it equals 0.50 exactly when no severity trigger word occurs
and the age contributes no boost. -/
theorem route_c7 (s : String) (a : Option ℕ)
    (hg : extractSymptomKeywords s = ["general"]) :
    (routeSymptoms s a).recommended_specialty = "cardiology"
    ∧ (routeSymptoms s a).confidence = 0.50
    ∧ (detectSeverityModifiers s = 0 →
        (ageTruthy a = true → (applyAgeModifiers (a.getD 0)).1 = 0) →
        (routeSymptoms s a).urgency = 0.50) := by
  have hacc : scoresAcc s = ⟨[], [], 0⟩ := by
    simp only [scoresAcc, hg]
    rfl
  have hfs0 : finalScoresOf s = [] := by
    simp [finalScoresOf, hacc]
  have hrec : (routeSymptoms s a).recommended_specialty
      = (match pyMaxByVal (finalScoresOf s) with
         | some p => p
         | none => (("cardiology", 0.50) : String × ℚ)).1 := rfl
  have hconf : (routeSymptoms s a).confidence
      = round2 (match pyMaxByVal (finalScoresOf s) with
         | some p => p
         | none => (("cardiology", 0.50) : String × ℚ)).2 := rfl
  rw [hfs0] at hrec hconf
  refine ⟨hrec, ?_, ?_⟩
  · rw [hconf]
    show round2 0.50 = 0.50
    exact round2_cent ⟨50, by norm_num⟩
  · intro hsev hage
    have hu : (routeSymptoms s a).urgency = round2 (routeUrgency s a) := rfl
    have hu0 : queryUrgencyTriage (extractSymptomKeywords s)
        (detectSymptomCombinations (extractSymptomKeywords s)) = 0.50 := by
      rw [hg]
      rfl
    have hru : routeUrgency s a = 0.50 := by
      cases hat : ageTruthy a with
      | false =>
        simp only [routeUrgency, hu0, hsev, hat, Bool.false_eq_true, if_false, add_zero]
        exact min_eq_right (by norm_num)
      | true =>
        simp only [routeUrgency, hu0, hsev, hat, eq_self_iff_true, if_true, add_zero]
        rw [hage hat, add_zero, min_eq_right (by norm_num : (0.50 : ℚ) ≤ 1),
          min_eq_right (by norm_num : (0.50 : ℚ) ≤ 1)]
    rw [hu, hru]
    exact round2_cent ⟨50, by norm_num⟩

/-- Witness for C7 on an unroutable input with no severity words and no age. -/
theorem route_c7_witness :
    (routeSymptoms "zzz" none).recommended_specialty = "cardiology"
    ∧ (routeSymptoms "zzz" none).confidence = 0.50
    ∧ (routeSymptoms "zzz" none).urgency = 0.50 := by
  obtain ⟨h1, h2, h3⟩ := route_c7 "zzz" none (by decide)
  exact ⟨h1, h2, h3 rfl (fun hat => absurd hat (by decide))⟩

/-- Claim C7, counterexample: `"I feel terrible"` yields no symptom tags, yet
the severity modifier for `terrible` raises the urgency to 0.62, refuting the
claim that the urgency is always the 0.50 default for tag-less inputs. -/
theorem route_c7_cx :
    extractSymptomKeywords "I feel terrible" = ["general"]
    ∧ (routeSymptoms "I feel terrible" none).recommended_specialty = "cardiology"
    ∧ (routeSymptoms "I feel terrible" none).confidence = 0.50
    ∧ (routeSymptoms "I feel terrible" none).urgency ≠ 0.50 := by
  refine ⟨by decide, rfl, ?_, ?_⟩
  · have hconf : (routeSymptoms "I feel terrible" none).confidence = round2 0.50 := rfl
    rw [hconf]
    exact round2_cent ⟨50, by norm_num⟩
  · have hu : (routeSymptoms "I feel terrible" none).urgency
        = round2 (min 1 (0.50 + (0 + 0.12))) := rfl
    rw [hu, show ((0.50 : ℚ) + (0 + 0.12)) = 0.62 by norm_num,
      min_eq_right (by norm_num : (0.62 : ℚ) ≤ 1), round2_cent ⟨62, by norm_num⟩]
    norm_num

/-- Witness for C4 at a concrete tie: `"headache and itching"` scores
neurology and dermatology both at 0.75 and the router recommends the
priority-earlier one. -/
theorem route_c4_witness :
    (("dermatology", 0.75) ∈ (routeSymptoms "headache and itching" none).all_specialty_scores)
    ∧ ((routeSymptoms "headache and itching" none).recommended_specialty, (0.75 : ℚ))
        ∈ (routeSymptoms "headache and itching" none).all_specialty_scores
    ∧ prio (routeSymptoms "headache and itching" none).recommended_specialty
        ≤ prio "dermatology" := by
  have hfs : (routeSymptoms "headache and itching" none).all_specialty_scores
      = [("neurology", 0.75), ("dermatology", 0.75)] := rfl
  have hmem : (("dermatology", (0.75 : ℚ)))
      ∈ (routeSymptoms "headache and itching" none).all_specialty_scores := by
    rw [hfs]
    exact List.mem_cons_of_mem _ (List.mem_cons_self _ _)
  have hmax : ∀ p ∈ (routeSymptoms "headache and itching" none).all_specialty_scores,
      p.2 ≤ (0.75 : ℚ) := by
    rw [hfs]
    intro p hp
    rcases List.mem_cons.mp hp with h1 | h1
    · rw [h1]
    · rcases List.mem_cons.mp h1 with h2 | h2
      · rw [h2]
      · cases h2
  obtain ⟨h1, h2⟩ := route_c4 "headache and itching" none "dermatology" 0.75 hmem hmax
  exact ⟨hmem, h1, h2⟩

end Triage

namespace Coordinator

theorem tableGet_set_same (t : SessionTable) (sid : String) (sess : SessionData) :
    tableGet (tableSet t sid sess) sid = some sess := by
  induction t with
  | nil => simp [tableSet, tableGet, List.find?]
  | cons hd rest ih =>
    obtain ⟨k, v⟩ := hd
    by_cases hk : k = sid
    · subst hk
      simp [tableSet, tableGet, List.find?]
    · have hbeq : (k == sid) = false := beq_eq_false_iff_ne.mpr hk
      simp only [tableSet, hbeq, Bool.false_eq_true, if_false]
      simp only [tableGet, List.find?_cons, hbeq] at ih ⊢
      exact ih

theorem tableGet_del_same (t : SessionTable) (sid : String) :
    tableGet (tableDel t sid) sid = none := by
  induction t with
  | nil => rfl
  | cons hd rest ih =>
    obtain ⟨k, v⟩ := hd
    by_cases hk : k = sid
    · subst hk
      simp only [tableDel, List.filter_cons, beq_self_eq_true, Bool.not_true,
        Bool.false_eq_true, if_false]
      exact ih
    · have hbeq : (k == sid) = false := beq_eq_false_iff_ne.mpr hk
      simp only [tableDel, List.filter_cons, hbeq, Bool.not_false, if_true]
      simp only [tableGet, List.find?_cons, hbeq] at ih ⊢
      exact ih

theorem tableGet_none_of_not_mem (t : SessionTable) (sid : String)
    (h : ¬ sid ∈ t.map Prod.fst) : tableGet t sid = none := by
  induction t with
  | nil => rfl
  | cons hd rest ih =>
    obtain ⟨k, v⟩ := hd
    have hk : k ≠ sid := by
      intro hc
      exact h (by rw [hc]; exact List.mem_cons_self _ _)
    have hbeq : (k == sid) = false := beq_eq_false_iff_ne.mpr hk
    simp only [tableGet, List.find?_cons, hbeq]
    exact ih (fun hc => h (List.mem_cons_of_mem _ hc))

theorem cleanup_keys_sub (now : ℕ) (t : SessionTable) {sid : String}
    (h : sid ∈ (cleanupStaleSessions now t).map Prod.fst) : sid ∈ t.map Prod.fst := by
  obtain ⟨p, hp, hp1⟩ := List.mem_map.mp h
  exact List.mem_map.mpr ⟨p, List.mem_of_mem_filter hp, hp1⟩

theorem cleanup_absent (now : ℕ) (sid : String) :
    ∀ (t : SessionTable) (sess : SessionData), (t.map Prod.fst).Nodup →
      tableGet t sid = some sess → sess.timestamp + sessionTimeoutSeconds < now →
      tableGet (cleanupStaleSessions now t) sid = none := by
  intro t
  induction t with
  | nil =>
    intro sess _ hget _
    simp [tableGet] at hget
  | cons hd rest ih =>
    intro sess hnd hget hold
    obtain ⟨k, v⟩ := hd
    by_cases hk : k = sid
    · have hbeq : (k == sid) = true := beq_iff_eq.mpr hk
      have hv : v = sess := by
        simpa [tableGet, List.find?_cons, hbeq] using hget
      have hlt : sessionTimeoutSeconds < now - v.timestamp := by
        rw [hv]
        omega
      have hstale : (!(sessionTimeoutSeconds < now - v.timestamp : Bool)) = false := by
        simp [hlt]
      simp only [cleanupStaleSessions, List.filter_cons, hstale, Bool.false_eq_true, if_false]
      have hnd2 : (k :: rest.map Prod.fst).Nodup := by
        rw [List.map_cons] at hnd
        exact hnd
      have hnd1 : ¬ sid ∈ rest.map Prod.fst := hk ▸ (List.nodup_cons.mp hnd2).1
      exact tableGet_none_of_not_mem _ _ (fun hc => hnd1 (cleanup_keys_sub now rest hc))
    · have hbeq : (k == sid) = false := beq_eq_false_iff_ne.mpr hk
      have hget' : tableGet rest sid = some sess := by
        simpa [tableGet, List.find?_cons, hbeq] using hget
      have hnd2 : (k :: rest.map Prod.fst).Nodup := by
        rw [List.map_cons] at hnd
        exact hnd
      have hnd' : (rest.map Prod.fst).Nodup := (List.nodup_cons.mp hnd2).2
      have ihres := ih sess hnd' hget' hold
      simp only [cleanupStaleSessions, List.filter_cons]
      by_cases hkeep : (!(sessionTimeoutSeconds < now - v.timestamp)) = true
      · rw [if_pos hkeep]
        simp only [tableGet, List.find?_cons, hbeq]
        exact ihres
      · rw [if_neg hkeep]
        exact ihres


/-- Claim C9: the TTL is 5 minutes and the sweep period 2 minutes, and every
session strictly older than the TTL is absent from the session table after
the next sweep, regardless of the state the session is in (the session data
is arbitrary). -/
theorem coord_c9 (t : SessionTable) (now : ℕ) (sid : String) (sess : SessionData)
    (hnd : (t.map Prod.fst).Nodup) (hget : tableGet t sid = some sess)
    (hold : sess.timestamp + sessionTimeoutSeconds < now) :
    sessionTimeoutSeconds = 5 * 60 ∧ cleanupIntervalSeconds = 2 * 60
    ∧ tableGet (cleanupStaleSessions now t) sid = none :=
  ⟨rfl, rfl, cleanup_absent now sid t sess hnd hget hold⟩

/-- Witness for C9 at a concrete stale session. -/
theorem coord_c9_witness :
    tableGet
      (cleanupStaleSessions 301
        [("s1", { user := "u1", symptoms := "chest pain", timestamp := 0,
                  triage_response := none, specialist_response := none })])
      "s1" = none :=
  (coord_c9
      [("s1", { user := "u1", symptoms := "chest pain", timestamp := 0,
                triage_response := none, specialist_response := none })]
      301 "s1"
      { user := "u1", symptoms := "chest pain", timestamp := 0,
        triage_response := none, specialist_response := none }
      (by decide) rfl (by decide)).2.2

/-- Claim C3, amended: when the recommended specialty has no mapped (or
configured) specialist endpoint, the coordinator stores the triage result,
sends the user an error `ChatResponse` (`"<specialty> agent not available"`),
sends **no** specialist request, and leaves the session entry in the table;
there is no fallback to a default specialist.  (The cardiology fallback the
spec describes lives in the HTTP pipeline `api/routes.py`, not in the
coordinator.) -/
theorem coord_c3_amended (cfg : Config) (t : SessionTable)
    (msg : SpecialtyRecommendationMsg) (sess : SessionData)
    (hget : tableGet t msg.session_id = some sess)
    (haddr : getSpecialistAddress cfg msg.recommended_specialty = "") :
    (handleTriageResponse cfg t msg).2
      = [Action.sendChat sess.user
          ⟨errorResponseText (msg.recommended_specialty ++ " agent not available"),
           msg.session_id⟩]
    ∧ tableGet (handleTriageResponse cfg t msg).1 msg.session_id
        = some { sess with triage_response := some (TriageStored.mk msg.recommended_specialty msg.confidence msg.urgency_level msg.reasoning msg.matched_rules) } := by
  have hbeq : (getSpecialistAddress cfg msg.recommended_specialty == "") = true := by
    simp [haddr]
  constructor
  · simp only [handleTriageResponse, hget, hbeq, if_true]
  · simp only [handleTriageResponse, hget, hbeq, if_true]
    exact tableGet_set_same t msg.session_id _

/-- Witness for the amended C3 at a concrete unmapped specialty. -/
theorem coord_c3_amended_witness :
    (handleTriageResponse ⟨"triage-addr", "cardio-addr", "neuro-addr", "derma-addr"⟩
      [("s1", { user := "user1", symptoms := "chest pain", timestamp := 0,
                triage_response := none, specialist_response := none })]
      ⟨"oncology", 0.9, "high", "triage reasoning", 5, [], "s1"⟩).2
      = [Action.sendChat "user1"
          ⟨errorResponseText "oncology agent not available", "s1"⟩] :=
  (coord_c3_amended ⟨"triage-addr", "cardio-addr", "neuro-addr", "derma-addr"⟩
    [("s1", { user := "user1", symptoms := "chest pain", timestamp := 0,
              triage_response := none, specialist_response := none })]
    ⟨"oncology", 0.9, "high", "triage reasoning", 5, [], "s1"⟩
    { user := "user1", symptoms := "chest pain", timestamp := 0,
      triage_response := none, specialist_response := none }
    rfl rfl).1

/-- Claim C3, counterexample: for the unmapped specialty `"oncology"` the
coordinator emits exactly one error chat response and no specialist request —
refuting the claimed fallback-and-continue behaviour. -/
theorem coord_c3_cx :
    ((handleTriageResponse ⟨"triage-addr", "cardio-addr", "neuro-addr", "derma-addr"⟩
      [("s2", { user := "user2", symptoms := "chest pain", timestamp := 0,
                triage_response := none, specialist_response := none })]
      ⟨"oncology", 0.9, "high", "triage reasoning", 5, [], "s2"⟩).2
      = [Action.sendChat "user2"
          ⟨errorResponseText "oncology agent not available", "s2"⟩])
    ∧ ¬ (∃ target req, Action.sendSpecialist target req ∈
        (handleTriageResponse ⟨"triage-addr", "cardio-addr", "neuro-addr", "derma-addr"⟩
          [("s2", { user := "user2", symptoms := "chest pain", timestamp := 0,
                    triage_response := none, specialist_response := none })]
          ⟨"oncology", 0.9, "high", "triage reasoning", 5, [], "s2"⟩).2) := by
  have hact : (handleTriageResponse ⟨"triage-addr", "cardio-addr", "neuro-addr", "derma-addr"⟩
      [("s2", { user := "user2", symptoms := "chest pain", timestamp := 0,
                triage_response := none, specialist_response := none })]
      ⟨"oncology", 0.9, "high", "triage reasoning", 5, [], "s2"⟩).2
      = [Action.sendChat "user2"
          ⟨errorResponseText "oncology agent not available", "s2"⟩] := rfl
  refine ⟨hact, ?_⟩
  rintro ⟨target, req, hmem⟩
  rw [hact] at hmem
  exact Action.noConfusion (List.mem_singleton.mp hmem)

/-- Claim C8, amended: a session that receives its specialist response is
deleted by the handler in message (push) and bridge modes; in REST mode it is
retained, marked `response_ready`, for the polling web-query handler, whose
poll exit (pickup or 60-second timeout) always leaves the session absent; but
on error paths (here: unconfigured triage agent) the session entry survives
the error response and is only removed later by the stale-session sweep. -/
theorem coord_c8_amended (t : SessionTable) (msg : SpecialistAnalysisResponseMsg)
    (doctors : List Doctor) (sess : SessionData) (tr : TriageStored)
    (hget : tableGet t msg.session_id = some sess)
    (htr : sess.triage_response = some tr) :
    (sess.bridge_mode = false → sess.rest_mode = false →
      tableGet (handleSpecialistResponse t msg doctors).1 msg.session_id = none)
    ∧ (sess.bridge_mode = true →
      tableGet (handleSpecialistResponse t msg doctors).1 msg.session_id = none)
    ∧ (sess.bridge_mode = false → sess.rest_mode = true →
      ∃ sess2, tableGet (handleSpecialistResponse t msg doctors).1 msg.session_id = some sess2
        ∧ sess2.response_ready = true)
    ∧ (∀ (cfg : Config) (now : ℕ) (sender : String) (m : ChatMessageData),
        isGreeting m.message = false → cfg.triageAddr = "" →
        (tableGet (handleChatMessage cfg now t sender m).1 m.session_id).isSome = true)
    ∧ (∀ (t2 : SessionTable) (sid sender : String),
        tableGet (webQueryResolve t2 sid sender).1 sid = none) := by
  refine ⟨?_, ?_, ?_, ?_, ?_⟩
  · intro hb hr
    simp only [handleSpecialistResponse, hget, htr, hb, hr, Bool.false_eq_true, if_false]
    exact tableGet_del_same _ _
  · intro hb
    simp only [handleSpecialistResponse, hget, htr, hb, if_true]
    exact tableGet_del_same _ _
  · intro hb hr
    simp only [handleSpecialistResponse, hget, htr, hb, hr, Bool.false_eq_true, if_false,
      if_true]
    exact ⟨_, tableGet_set_same _ _ _, rfl⟩
  · intro cfg now sender m hgreet htri
    have hbeq : (cfg.triageAddr == "") = true := by simp [htri]
    simp only [handleChatMessage, hgreet, Bool.false_eq_true, if_false, hbeq, if_true]
    rw [tableGet_set_same]
    rfl
  · intro t2 sid sender
    unfold webQueryResolve
    cases hg : tableGet t2 sid with
    | none => exact hg
    | some sess2 =>
      cases hr : sess2.response_ready
      · simp only [hr, Bool.false_eq_true, if_false]
        exact tableGet_del_same _ _
      · simp only [hr, if_true]
        exact tableGet_del_same _ _

/-- Witness for the amended C8: a message-mode session is deleted upon its
specialist response. -/
theorem coord_c8_amended_witness :
    tableGet
      ((handleSpecialistResponse
        [("s3", { user := "user3", symptoms := "chest pain", timestamp := 0,
                  triage_response := some ⟨"cardiology", 0.9, "high", "r", 5⟩,
                  specialist_response := none })]
        ⟨"cardiology", "diag", "angina", 0.77, 0.85, "high", ["rec"], 5, [], false, "sum", "s3"⟩
        []).1)
      "s3" = none := by
  have h := coord_c8_amended
    [("s3", { user := "user3", symptoms := "chest pain", timestamp := 0,
              triage_response := some ⟨"cardiology", 0.9, "high", "r", 5⟩,
              specialist_response := none })]
    ⟨"cardiology", "diag", "angina", 0.77, 0.85, "high", ["rec"], 5, [], false, "sum", "s3"⟩
    []
    { user := "user3", symptoms := "chest pain", timestamp := 0,
      triage_response := some ⟨"cardiology", 0.9, "high", "r", 5⟩,
      specialist_response := none }
    ⟨"cardiology", 0.9, "high", "r", 5⟩ rfl rfl
  exact h.1 rfl rfl

/-- Claim C8, counterexample: with no triage agent configured the chat
handler reaches a terminal error outcome (an error response is emitted), yet
the freshly created session is still present in the table — refuting the
claim that no session entry survives its own terminal transition. -/
theorem coord_c8_cx :
    (tableGet (handleChatMessage ⟨"", "cardio-addr", "neuro-addr", "derma-addr"⟩ 100 []
      "user1" ⟨"I have chest pain", "s1"⟩).1 "s1").isSome = true
    ∧ (handleChatMessage ⟨"", "cardio-addr", "neuro-addr", "derma-addr"⟩ 100 []
      "user1" ⟨"I have chest pain", "s1"⟩).2
      = [Action.sendChat "user1"
          ⟨errorResponseText "Triage agent not configured", "s1"⟩] :=
  ⟨rfl, rfl⟩

end Coordinator

end PulseBridge
